import Mathlib

/-!
Shallow embedding of the skywalking-mcp repository's duration-normalization,
pagination, and trace-reshaping logic (internal/tools/common.go and
internal/tools/trace.go), together with proofs of the specification claims.

Modelling conventions:
* Go `time.Time` instants are modelled as `Int` nanoseconds since the Unix
  epoch, in a fixed-offset (UTC) clock; `time.Now()` becomes an explicit
  `now : Int` parameter.
* Go `time.Duration` values are `Int` nanoseconds.
* Machine-integer overflow is modelled explicitly where the Go code can
  overflow (see `int64Wrap`).
-/

namespace SWMCP

/-- Number of nanoseconds in Go's `time.Second`. -/
def timeSecond : Int := 1000000000

/-- Number of nanoseconds in Go's `time.Minute`. -/
def timeMinute : Int := 60000000000

/-- Number of nanoseconds in Go's `time.Hour`. -/
def timeHour : Int := 3600000000000

/-- Two-complement wrap-around of a mathematical integer into int64 range,
used where the Go code multiplies `int64` values without overflow checks. -/
def int64Wrap (n : Int) : Int := (n + 9223372036854775808) % 18446744073709551616 - 9223372036854775808

/-- Civil (proleptic Gregorian) date from a count of days since 1970-01-01,
the standard days-to-civil algorithm; yields (year, month, day). -/
def civilFromDays (z0 : Int) : Int × Nat × Nat :=
  let z := z0 + 719468
  let era := Int.fdiv z 146097
  let doe := (z - era * 146097).toNat
  let yoe := (doe - doe / 1460 + doe / 36524 - doe / 146096) / 365
  let doy := doe - (365 * yoe + yoe / 4 - yoe / 100)
  let mp := (5 * doy + 2) / 153
  let d := doy - (153 * mp + 2) / 5 + 1
  let m := if mp < 10 then mp + 3 else mp - 9
  ((yoe : Int) + era * 400 + (if m ≤ 2 then 1 else 0), m, d)

/-- Civil date to a count of days since 1970-01-01 (inverse of
`civilFromDays`), the standard civil-to-days algorithm. -/
def daysFromCivil (y0 : Int) (m d : Nat) : Int :=
  let y := y0 - (if m ≤ 2 then 1 else 0)
  let era := Int.fdiv y 400
  let yoe := (y - era * 400).toNat
  let mp := (m + 9) % 12
  let doy := (153 * mp + 2) / 5 + d - 1
  let doe := yoe * 365 + yoe / 4 - yoe / 100 + doy
  era * 146097 + (doe : Int) - 719468

/-- Broken-down civil time, the components Go's `Time.Format` renders. -/
structure CivilTime where
  year : Int
  month : Nat
  day : Nat
  hour : Nat
  minute : Nat
  second : Nat

/-- Broken-down UTC civil time of an instant given in nanoseconds since the
Unix epoch. -/
def civilOfNs (t : Int) : CivilTime :=
  let totalSec := Int.fdiv t 1000000000
  let days := Int.fdiv totalSec 86400
  let sod := (totalSec - days * 86400).toNat
  let ymd := civilFromDays days
  { year := ymd.1, month := ymd.2.1, day := ymd.2.2,
    hour := sod / 3600, minute := sod % 3600 / 60, second := sod % 60 }

/-- Decimal rendering of a natural number left-padded with zeros to width `w`,
as Go's `appendInt` does for non-negative values. -/
def padZeroNat (w : Nat) (n : Nat) : String :=
  let s := Nat.repr n
  String.mk (List.replicate (w - s.length) '0') ++ s

/-- Decimal rendering of an integer padded to width `w`, as Go's `appendInt`
(used for the year field of layouts). -/
def appendIntPad (w : Nat) (n : Int) : String :=
  if n < 0 then "-" ++ padZeroNat w n.natAbs else padZeroNat w n.toNat

/-- Rendering of the `2006-01-02` date part of a layout. -/
def dateStr (c : CivilTime) : String :=
  appendIntPad 4 c.year ++ "-" ++ padZeroNat 2 c.month ++ "-" ++ padZeroNat 2 c.day

/-- Go `t.Format(layout)` specialised to the five fixed layout strings the
repository passes to it; other layouts are never used by the embedded code. -/
def goFormat (t : Int) (layout : String) : String :=
  let c := civilOfNs t
  if layout = "2006-01-02" then dateStr c
  else if layout = "2006-01-02 15" then dateStr c ++ " " ++ padZeroNat 2 c.hour
  else if layout = "2006-01-02 1504" then
    dateStr c ++ " " ++ padZeroNat 2 c.hour ++ padZeroNat 2 c.minute
  else if layout = "2006-01-02 150405" then
    dateStr c ++ " " ++ padZeroNat 2 c.hour ++ padZeroNat 2 c.minute ++ padZeroNat 2 c.second
  else if layout = "2006-01-02 15:04:05" then
    dateStr c ++ " " ++ padZeroNat 2 c.hour ++ ":" ++ padZeroNat 2 c.minute ++ ":" ++ padZeroNat 2 c.second
  else ""

namespace api

/-- Go `type Step string` from skywalking goapi. -/
abbrev Step := String

/-- Step constant `DAY`. -/
def StepDay : Step := "DAY"

/-- Step constant `HOUR`. -/
def StepHour : Step := "HOUR"

/-- Step constant `MINUTE`. -/
def StepMinute : Step := "MINUTE"

/-- Step constant `SECOND`. -/
def StepSecond : Step := "SECOND"

/-- Go `func (e Step) IsValid() bool` from skywalking goapi. -/
def Step.IsValid (e : Step) : Bool :=
  e == StepDay || e == StepHour || e == StepMinute || e == StepSecond

/-- Go `api.Duration` (start, end, step, optional cold-stage flag). -/
structure Duration where
  Start : String
  End : String
  Step : api.Step
  ColdStage : Option Bool
deriving DecidableEq

/-- Go `api.Pagination`; `PageNum *int` becomes `Option Int`. -/
structure Pagination where
  PageNum : Option Int
  PageSize : Int
deriving DecidableEq

end api

/-- Default page size constant from common.go. -/
def DefaultPageSize : Int := 15

/-- Default page number constant from common.go. -/
def DefaultPageNum : Int := 1

/-- Default duration (minutes) constant from common.go. -/
def DefaultDuration : Int := 30

/-- FormatTimeByStep from common.go: formats a time according to step
granularity, selecting one of five fixed layout strings. -/
def FormatTimeByStep (t : Int) (step : api.Step) : String :=
  if step = api.StepDay then goFormat t "2006-01-02"
  else if step = api.StepHour then goFormat t "2006-01-02 15"
  else if step = api.StepMinute then goFormat t "2006-01-02 1504"
  else if step = api.StepSecond then goFormat t "2006-01-02 150405"
  else goFormat t "2006-01-02 15:04:05"

/-- determineAdaptiveStep from common.go. -/
def determineAdaptiveStep (startTime endTime : Int) : api.Step :=
  let duration := endTime - startTime
  if duration ≥ 7 * 24 * timeHour then api.StepDay
  else if duration ≥ 24 * timeHour then api.StepHour
  else if duration ≥ timeHour then api.StepMinute
  else api.StepSecond

/-- Value `1 <<< 63`, the overflow bound used by Go's duration parser. -/
def maxU63 : Nat := 9223372036854775808

/-- Go `time.leadingInt`: consumes leading decimal digits, accumulating into
`x`, failing (like Go) once the accumulator exceeds `1 <<< 63`. -/
def leadingIntGo : List Char → Nat → Option (Nat × List Char)
  | [], x => some (x, [])
  | c :: rest, x =>
    if c.isDigit then
      if x > 922337203685477580 then none
      else
        let x2 := x * 10 + (c.toNat - 48)
        if x2 > 9223372036854775808 then none
        else leadingIntGo rest x2
    else some (x, c :: rest)

/-- Go `time.leadingFraction`: consumes fractional digits, returning the
digits value and the scale (a power of ten); on overflow it stops updating
but keeps consuming, as Go does. -/
def leadingFractionGo : List Char → Nat → Nat → Bool → Nat × Nat × List Char
  | [], x, scale, _ => (x, scale, [])
  | c :: rest, x, scale, overflow =>
    if c.isDigit then
      if overflow then leadingFractionGo rest x scale overflow
      else if x > 922337203685477580 then leadingFractionGo rest x scale true
      else
        let y := x * 10 + (c.toNat - 48)
        if y > 9223372036854775808 then leadingFractionGo rest x scale true
        else leadingFractionGo rest y (scale * 10) overflow
    else (x, scale, c :: rest)

/-- Go `time.unitMap` lookup: duration unit token to nanoseconds. -/
def unitMapGo : List Char → Option Nat
  | ['n', 's'] => some 1
  | ['u', 's'] => some 1000
  | ['µ', 's'] => some 1000
  | ['μ', 's'] => some 1000
  | ['m', 's'] => some 1000000
  | ['s'] => some 1000000000
  | ['m'] => some 60000000000
  | ['h'] => some 3600000000000
  | _ => none

/-- Splitting of the input at the first digit or dot, used to isolate the
unit token in Go's duration parser. -/
def takeUnit : List Char → List Char × List Char
  | [] => ([], [])
  | c :: rest =>
    if c = '.' ∨ c.isDigit then ([], c :: rest)
    else
      let r := takeUnit rest
      (c :: r.1, r.2)

/-- Optional fractional part `(\.[0-9]*)?`: returns digits value, scale,
whether digits were consumed, and the remainder. -/
def consumeFraction : List Char → Nat × Nat × Bool × List Char
  | '.' :: s2 =>
    let r := leadingFractionGo s2 0 1 false
    (r.1, r.2.1, decide (r.2.2.length < s2.length), r.2.2)
  | s => (0, 1, false, s)

/-- Main loop of Go `time.ParseDuration`: repeatedly consumes a
number-with-optional-fraction followed by a unit, accumulating nanoseconds.
`fuel` bounds the recursion; each iteration consumes at least one character,
so `length + 1` fuel always suffices. The Go code computes the fractional
contribution through `float64`; it is modelled here by the exact truncated
quotient `f * unit / scale`, which agrees with Go on all claim-relevant
inputs. -/
def goParseDurationLoop : Nat → List Char → Nat → Option Nat
  | 0, _, _ => none
  | Nat.succ fuel, s, d =>
    match s with
    | [] => some d
    | c :: _ =>
      if ¬(c = '.' ∨ c.isDigit) then none
      else
        match leadingIntGo s 0 with
        | none => none
        | some (v, s1) =>
          let pre : Bool := decide (s1.length < s.length)
          match consumeFraction s1 with
          | (f, scale, post, s2) =>
            if pre = false ∧ post = false then none
            else
              match takeUnit s2 with
              | ([], _) => none
              | (u, s3) =>
                match unitMapGo u with
                | none => none
                | some unit =>
                  if v > maxU63 / unit then none
                  else
                    let v1 := v * unit
                    let v2 := if f > 0 then v1 + f * unit / scale else v1
                    if f > 0 ∧ v2 > maxU63 then none
                    else
                      let d1 := d + v2
                      if d1 > maxU63 then none
                      else goParseDurationLoop fuel s3 d1

/-- Go `time.ParseDuration`: `some` of the signed nanosecond value when the
input parses, `none` when Go would return an error. -/
def goParseDuration (str : String) : Option Int :=
  let cs := str.toList
  let signed :=
    match cs with
    | c :: rest => if c = '-' ∨ c = '+' then (decide (c = '-'), rest) else (false, cs)
    | [] => (false, cs)
  let neg := signed.1
  let s := signed.2
  if s = ['0'] then some 0
  else if s = [] then none
  else
    match goParseDurationLoop (s.length + 1) s 0 with
    | none => none
    | some d =>
      if neg then some (-(d : Int))
      else if d > maxU63 - 1 then none
      else some (d : Int)

/-- Go `fmt.Sscanf(s, "%d", &n)` on a decimal integer: skips leading blanks,
accepts an optional sign and at least one digit, fails on int64 overflow;
trailing non-digit input is ignored, as `Sscanf` does. -/
def sscanfInt (str : String) : Option Int :=
  let cs := str.toList.dropWhile (fun c => c = ' ' ∨ c = '\t')
  let signed :=
    match cs with
    | c :: rest =>
      if c = '-' then (true, rest)
      else if c = '+' then (false, rest)
      else (false, cs)
    | [] => (false, cs)
  let digits := signed.2.takeWhile Char.isDigit
  if digits = [] then none
  else
    let n : Nat := digits.foldl (fun acc c => acc * 10 + (c.toNat - 48)) 0
    let v : Int := if signed.1 then -(n : Int) else (n : Int)
    if v < -9223372036854775808 ∨ v > 9223372036854775807 then none else some v

/-- parseLegacyDuration from common.go: parses legacy duration strings like
"7d", "24h". Go's `AddDate(0, 0, -days)` is modelled as subtracting
`days` 24-hour periods (exact in a fixed-offset zone); the unchecked
`time.Duration(hours) * time.Hour` int64 multiply is wrapped explicitly.
Go inspects the last byte of the string; the model inspects the last
character, which coincides on ASCII input. -/
def parseLegacyDuration (now : Int) (durationStr : String) : Int × Int × api.Step :=
  let cs := durationStr.toList
  if cs.length > 1 ∧ (cs.getLastD ' ' = 'd' ∨ cs.getLastD ' ' = 'D') then
    match sscanfInt (String.mk cs.dropLast) with
    | some days =>
      if days > 0 then (now - days * 86400000000000, now, api.StepDay)
      else (now - 7 * 86400000000000, now, api.StepDay)
    | none => (now - 7 * 86400000000000, now, api.StepDay)
  else if cs.length > 1 ∧ (cs.getLastD ' ' = 'h' ∨ cs.getLastD ' ' = 'H') then
    match sscanfInt (String.mk cs.dropLast) with
    | some hours =>
      if hours > 0 then (now - int64Wrap (hours * timeHour), now, api.StepHour)
      else (now - timeHour, now, api.StepHour)
    | none => (now - timeHour, now, api.StepHour)
  else (now - 7 * 86400000000000, now, api.StepDay)

/-- ParseDuration from common.go: converts a duration string to an
`api.Duration`, with `time.Now()` passed explicitly as `now`. -/
def ParseDuration (now : Int) (durationStr : String) (coldStage : Bool) : api.Duration :=
  let branch :=
    match goParseDuration durationStr with
    | some duration =>
      if duration < 0 then (now + duration, now, determineAdaptiveStep (now + duration) now)
      else (now, now + duration, determineAdaptiveStep now (now + duration))
    | none => parseLegacyDuration now durationStr
  let startTime := branch.1
  let endTime := branch.2.1
  let step := if ¬(api.Step.IsValid branch.2.2) then api.StepMinute else branch.2.2
  { Start := FormatTimeByStep startTime step,
    End := FormatTimeByStep endTime step,
    Step := step,
    ColdStage := if coldStage then some true else none }

/-- BuildPagination from common.go: creates pagination with defaults. -/
def BuildPagination (pageNum pageSize : Int) : api.Pagination :=
  let pageNum := if pageNum ≤ 0 then DefaultPageNum else pageNum
  let pageSize := if pageSize ≤ 0 then DefaultPageSize else pageSize
  { PageNum := some pageNum, PageSize := pageSize }

example : goParseDuration "24h" = some 86400000000000 := by decide
example : goParseDuration "7d" = none := by decide
example : goParseDuration "-30m" = some (-1800000000000) := by decide
example : goParseDuration "xyz" = none := by decide
example : goParseDuration "2h30m" = some 9000000000000 := by decide
/-- Accumulation of a digit list into a natural number. -/
def digitsToNat (l : List Char) : Nat :=
  l.foldl (fun a c => a * 10 + (c.toNat - 48)) 0

/-- Go `getnum` with `fixed = true` generalised to width `k`: consumes exactly
`k` decimal digits. -/
def fixedNum (k : Nat) (s : List Char) : Option (Nat × List Char) :=
  let pre := s.take k
  if pre.length = k ∧ pre.all Char.isDigit then some (digitsToNat pre, s.drop k) else none

/-- Go `getnum` with `fixed = false`: consumes one or two decimal digits. -/
def flexNum2 : List Char → Option (Nat × List Char)
  | c1 :: c2 :: rest =>
    if c1.isDigit then
      if c2.isDigit then some (digitsToNat [c1, c2], rest)
      else some (c1.toNat - 48, c2 :: rest)
    else none
  | [c1] => if c1.isDigit then some (c1.toNat - 48, []) else none
  | [] => none

/-- Consumption of one expected literal character of a layout. -/
def expectChar (c : Char) : List Char → Option (List Char)
  | d :: rest => if d = c then some rest else none
  | [] => none

/-- Number of days of a month in the proleptic Gregorian calendar, as Go's
`daysIn`. -/
def daysInMonth (y : Int) (m : Nat) : Nat :=
  if m = 2 then (if (y % 4 = 0 ∧ y % 100 ≠ 0) ∨ y % 400 = 0 then 29 else 28)
  else if m = 4 ∨ m = 6 ∨ m = 9 ∨ m = 11 then 30 else 31

/-- Range validation and conversion of parsed date/time components into
nanoseconds since the Unix epoch (UTC), as Go's `Parse` finalisation. -/
def mkInstant (y : Int) (m d hh mm ss : Nat) : Option Int :=
  if 1 ≤ m ∧ m ≤ 12 ∧ 1 ≤ d ∧ d ≤ daysInMonth y m ∧ hh < 24 ∧ mm < 60 ∧ ss < 60 then
    some ((daysFromCivil y m d * 86400 + ((hh * 3600 + mm * 60 + ss : Nat) : Int)) * 1000000000)
  else none

/-- Parsing of the `2006-01-02` date part shared by all six layouts. -/
def parseYMD (s : List Char) : Option ((Int × Nat × Nat) × List Char) := do
  let p1 ← fixedNum 4 s
  let s1 ← expectChar '-' p1.2
  let p2 ← fixedNum 2 s1
  let s2 ← expectChar '-' p2.2
  let p3 ← fixedNum 2 s2
  return (((p1.1 : Int), p2.1, p3.1), p3.2)

/-- Go `time.Parse(layout, value)` specialised to the six layout strings
`parseAbsoluteTime` tries, returning the instant in nanoseconds (UTC). -/
def goTimeParse (layout : String) (value : String) : Option Int := do
  let p ← parseYMD value.toList
  let y := p.1.1
  let m := p.1.2.1
  let d := p.1.2.2
  let rest := p.2
  if layout = "2006-01-02" then
    if rest = [] then mkInstant y m d 0 0 0 else none
  else do
    let rest ← expectChar ' ' rest
    let ph ← flexNum2 rest
    if layout = "2006-01-02 15" then
      if ph.2 = [] then mkInstant y m d ph.1 0 0 else none
    else if layout = "2006-01-02 15:04" then do
      let r1 ← expectChar ':' ph.2
      let pm ← fixedNum 2 r1
      if pm.2 = [] then mkInstant y m d ph.1 pm.1 0 else none
    else if layout = "2006-01-02 1504" then do
      let pm ← fixedNum 2 ph.2
      if pm.2 = [] then mkInstant y m d ph.1 pm.1 0 else none
    else if layout = "2006-01-02 150405" then do
      let pm ← fixedNum 2 ph.2
      let ps ← fixedNum 2 pm.2
      if ps.2 = [] then mkInstant y m d ph.1 pm.1 ps.1 else none
    else if layout = "2006-01-02 15:04:05" then do
      let r1 ← expectChar ':' ph.2
      let pm ← fixedNum 2 r1
      let r2 ← expectChar ':' pm.2
      let ps ← fixedNum 2 r2
      if ps.2 = [] then mkInstant y m d ph.1 pm.1 ps.1 else none
    else none

/-- parseAbsoluteTime from common.go: tries six fixed layouts in order and
returns the first successful parse. -/
def parseAbsoluteTime (timeStr : String) : Option Int :=
  ["2006-01-02 15:04:05", "2006-01-02 15:04", "2006-01-02 1504",
   "2006-01-02 15", "2006-01-02 150405", "2006-01-02"].findSome?
    (fun layout => goTimeParse layout timeStr)

/-- Go `strings.EqualFold` restricted to ASCII folding, which coincides with
Go on the inputs this code compares (the keyword `now`). -/
def eqFold (a b : String) : Bool :=
  a.toList.map Char.toLower == b.toList.map Char.toLower

/-- parseTimeString from common.go: parses a start or end time string. -/
def parseTimeString (now : Int) (timeStr : String) (defaultTime : Int) : Int :=
  if timeStr = "" then defaultTime
  else if eqFold timeStr "now" then now
  else
    match goParseDuration timeStr with
    | some duration => now + duration
    | none =>
      match parseAbsoluteTime timeStr with
      | some parsed => parsed
      | none => defaultTime

/-- parseStartEndTimes from common.go: parses start and end time strings,
defaulting to the window from thirty minutes ago until now. -/
def parseStartEndTimes (now : Int) (start endStr : String) : Int × Int :=
  (parseTimeString now start (now - 30 * timeMinute), parseTimeString now endStr now)

/-- BuildDuration from common.go: creates a duration from parameters; the Go
parameter `end` is renamed `endStr` (`end` is reserved in Lean). -/
def BuildDuration (now : Int) (start endStr step : String) (cold : Bool)
    (defaultDurationMinutes : Int) : api.Duration :=
  if start ≠ "" ∨ endStr ≠ "" then
    let stepEnum : api.Step := step
    let times := parseStartEndTimes now start endStr
    let stepEnum :=
      if step = "" ∨ ¬(api.Step.IsValid stepEnum) then determineAdaptiveStep times.1 times.2
      else stepEnum
    { Start := FormatTimeByStep times.1 stepEnum,
      End := FormatTimeByStep times.2 stepEnum,
      Step := stepEnum,
      ColdStage := if cold then some true else none }
  else
    let dm := if defaultDurationMinutes ≤ 0 then DefaultDuration else defaultDurationMinutes
    ParseDuration now ("-" ++ Int.repr dm ++ "m") cold

/-- View constant `full`. -/
def ViewFull : String := "full"

/-- View constant `summary`. -/
def ViewSummary : String := "summary"

/-- View constant `errors_only`. -/
def ViewErrorsOnly : String := "errors_only"

/-- Trace state constant `success`. -/
def TraceStateSuccess : String := "success"

/-- Trace state constant `error`. -/
def TraceStateError : String := "error"

/-- Trace state constant `all`. -/
def TraceStateAll : String := "all"

/-- Query order constant `start_time`. -/
def QueryOrderStartTime : String := "start_time"

/-- Query order constant `duration`. -/
def QueryOrderDuration : String := "duration"

/-- Layout constant TimeFormatFull from trace.go. -/
def TimeFormatFull : String := "2006-01-02 15:04:05"

/-- Default page size for the traces query tool. -/
def DefaultTracePageSize : Int := 20

/-- Default duration for the traces query tool. -/
def DefaultTraceDuration : String := "1h"

/-- Message `ErrTraceNotFound` with its format verb substituted. -/
def ErrTraceNotFoundMsg (traceID : String) : String :=
  "trace with ID \x27" ++ traceID ++ "\x27 not found"

/-- Message `ErrInvalidView` with its format verbs substituted. -/
def ErrInvalidViewMsg (view : String) : String :=
  "invalid view \x27" ++ view ++ "\x27, available views: full, summary, errors_only"

/-- Message `ErrNoTracesFound`. -/
def ErrNoTracesFoundMsg : String := "no traces found matching the query criteria"

/-- Message `ErrNoFilterCondition`. -/
def ErrNoFilterConditionMsg : String := "at least one filter condition must be provided"

/-- Message `ErrInvalidDurationRange` with its format verbs substituted. -/
def ErrInvalidDurationRangeMsg (minD maxD : Int) : String :=
  "invalid duration range: min_duration (" ++ Int.repr minD ++ ") > max_duration (" ++ Int.repr maxD ++ ")"

/-- Message `ErrNegativePageSize`. -/
def ErrNegativePageSizeMsg : String := "page_size cannot be negative"

/-- Message `ErrNegativePageNum`. -/
def ErrNegativePageNumMsg : String := "page_num cannot be negative"

/-- Message `ErrInvalidTraceState` with its format verbs substituted. -/
def ErrInvalidTraceStateMsg (s : String) : String :=
  "invalid trace_state \x27" ++ s ++ "\x27, available states: success, error, all"

/-- Message `ErrInvalidQueryOrder` with its format verbs substituted. -/
def ErrInvalidQueryOrderMsg (s : String) : String :=
  "invalid query_order \x27" ++ s ++ "\x27, available orders: start_time, duration"

/-- Message `ErrFailedToQueryTraces` with its format verb substituted. -/
def ErrFailedToQueryTracesMsg (e : String) : String := "failed to query traces: " ++ e

namespace api

/-- Subset of goapi `api.Span` covering the fields the embedded code reads;
the remaining fields are never consulted by trace.go. Pointer-typed fields
become options. -/
structure Span where
  SpanID : Int
  ParentSpanID : Int
  ServiceCode : String
  StartTime : Int
  EndTime : Int
  EndpointName : Option String
  IsError : Option Bool
deriving DecidableEq

/-- goapi `api.Trace`: a list of span pointers (`none` models a nil entry). -/
structure Trace where
  Spans : List (Option Span)
deriving DecidableEq

/-- Subset of goapi `api.BasicTrace` covering the fields the embedded code
reads. -/
structure BasicTrace where
  SegmentID : String
  EndpointNames : List String
  Duration : Int
  Start : String
  IsError : Option Bool
  TraceIds : List String
deriving DecidableEq

/-- goapi `api.TraceBrief`: a list of basic-trace pointers. -/
structure TraceBrief where
  Traces : List (Option BasicTrace)
deriving DecidableEq

/-- goapi `type TraceState string`. -/
abbrev TraceState := String

/-- Trace state enum value `SUCCESS`. -/
def TraceStateSuccess : TraceState := "SUCCESS"

/-- Trace state enum value `ERROR`. -/
def TraceStateError : TraceState := "ERROR"

/-- Trace state enum value `ALL`. -/
def TraceStateAll : TraceState := "ALL"

/-- goapi `type QueryOrder string`. -/
abbrev QueryOrder := String

/-- Query order enum value `BY_START_TIME`. -/
def QueryOrderByStartTime : QueryOrder := "BY_START_TIME"

/-- Query order enum value `BY_DURATION`. -/
def QueryOrderByDuration : QueryOrder := "BY_DURATION"

/-- goapi `api.SpanTag`. -/
structure SpanTag where
  Key : String
  Value : Option String
deriving DecidableEq

/-- Subset of goapi `api.TraceQueryCondition` covering the fields
buildQueryCondition sets. -/
structure TraceQueryCondition where
  ServiceID : Option String
  ServiceInstanceID : Option String
  TraceID : Option String
  EndpointID : Option String
  MinTraceDuration : Option Int
  MaxTraceDuration : Option Int
  Tags : List api.SpanTag
  QueryDuration : Option api.Duration
  TraceState : api.TraceState
  QueryOrder : api.QueryOrder
  Paging : Option api.Pagination
deriving DecidableEq

end api

/-- TraceSummary from trace.go. -/
structure TraceSummary where
  TraceID : String
  TotalSpans : Nat
  Services : List String
  TotalDuration : Int
  ErrorCount : Nat
  HasErrors : Bool
  RootEndpoint : String
  StartTime : Int
  EndTime : Int
deriving DecidableEq

/-- BasicTraceSummary from trace.go. -/
structure BasicTraceSummary where
  TraceID : String
  ServiceName : String
  EndpointName : String
  StartTime : Int
  Duration : Int
  IsError : Bool
  SpanCount : Nat
deriving DecidableEq

/-- TimeRange from trace.go. -/
structure TimeRange where
  StartTime : Int
  EndTime : Int
  Duration : Int
deriving DecidableEq

/-- TracesSummary from trace.go; the `float64` average duration is modelled
as an exact rational. -/
structure TracesSummary where
  TotalTraces : Nat
  SuccessCount : Nat
  ErrorCount : Nat
  Services : List String
  Endpoints : List String
  AvgDuration : Rat
  MinDuration : Int
  MaxDuration : Int
  TimeRange : TimeRange
  ErrorTraces : List BasicTraceSummary
  SlowTraces : List BasicTraceSummary
deriving DecidableEq

/-- TracesQueryRequest from trace.go; `SpanTag` request tags reuse the api
structure shape (a key and a value string). -/
structure TracesQueryRequest where
  ServiceID : String := ""
  ServiceInstanceID : String := ""
  TraceID : String := ""
  EndpointID : String := ""
  Duration : String := ""
  MinTraceDuration : Int := 0
  MaxTraceDuration : Int := 0
  TraceState : String := ""
  QueryOrder : String := ""
  PageSize : Int := 0
  PageNum : Int := 0
  View : String := ""
  SlowTraceThreshold : Int := 0
  Tags : List (String × String) := []
  Cold : Bool := false
deriving DecidableEq

/-- Success payload of a tool result: the structured value handed to
`json.Marshal`. Marshalling of these concrete types cannot fail in Go, so
the JSON text itself is not modelled. -/
inductive ToolPayload where
  | traceSummary (s : TraceSummary)
  | spans (l : List api.Span)
  | fullTrace (t : api.Trace)
  | tracesSummary (s : TracesSummary)
  | basicSummaries (l : List BasicTraceSummary)
  | fullBrief (b : api.TraceBrief)
deriving DecidableEq

/-- Outcome of one tool invocation: the two mcp-go result shapes the
embedded code produces (`NewToolResultError msg` and `NewToolResultText
payload`), plus `panicked`, recording an invocation on which the Go code
panics instead of returning any result (see `createBasicTraceSummary`). -/
inductive CallToolResult where
  | error (msg : String)
  | success (p : ToolPayload)
  | panicked
deriving DecidableEq

/-- Insertion into a Go `map[string]struct\x7b\x7d` used as a set, modelled
as an ordered duplicate-free list (first-insertion order). -/
def mapInsert (l : List String) (k : String) : List String :=
  if k ∈ l then l else l ++ [k]

/-- Accumulator threaded through the span loop of generateTraceSummary: the
service set and the partially-built summary. -/
structure TraceSummaryAcc where
  services : List String
  summary : TraceSummary

/-- Body of the span loop of generateTraceSummary from trace.go. -/
def traceSummarySpanStep (acc : TraceSummaryAcc) (os : Option api.Span) : TraceSummaryAcc :=
  match os with
  | none => acc
  | some span =>
    let services := mapInsert acc.services span.ServiceCode
    let s := acc.summary
    let s := if span.IsError = some true then { s with ErrorCount := s.ErrorCount + 1 } else s
    let s :=
      if span.SpanID = 0 ∧ span.ParentSpanID = -1 then
        let s :=
          match span.EndpointName with
          | some e => { s with RootEndpoint := e }
          | none => s
        let s := { s with StartTime := span.StartTime, EndTime := span.EndTime }
        if s.StartTime > 0 ∧ s.EndTime > 0 then
          { s with TotalDuration := s.EndTime - s.StartTime }
        else s
      else s
    { services := services, summary := s }

/-- Comparator used to model `sort.Strings` via mergeSort. Go's sort is
unstable, but on a total antisymmetric order the sorted result is unique,
so any sorting algorithm is an exact model. -/
def strLeB (a b : String) : Bool := decide (a ≤ b)

/-- Initial accumulator of generateTraceSummary: empty service map and the
summary record literal the Go function starts from. -/
def traceSummaryInit (traceID : String) (tr : api.Trace) : TraceSummaryAcc :=
  { services := [],
    summary :=
      { TraceID := traceID, TotalSpans := tr.Spans.length, Services := [],
        TotalDuration := 0, ErrorCount := 0, HasErrors := false, RootEndpoint := "",
        StartTime := 0, EndTime := 0 } }

/-- generateTraceSummary from trace.go: creates a summary view from full
trace data. -/
def generateTraceSummary (traceID : String) (traceData : api.Trace) : TraceSummary :=
  let acc := traceData.Spans.foldl traceSummarySpanStep (traceSummaryInit traceID traceData)
  let s := { acc.summary with HasErrors := acc.summary.ErrorCount > 0 }
  { s with Services := acc.services.mergeSort strLeB }

/-- Body of the span loop of filterErrorSpans from trace.go. -/
def filterErrorSpansStep (acc : List api.Span) (os : Option api.Span) : List api.Span :=
  match os with
  | some span => if span.IsError = some true then acc ++ [span] else acc
  | none => acc

/-- filterErrorSpans from trace.go: extracts only the spans with errors. -/
def filterErrorSpans (traceData : api.Trace) : List api.Span :=
  traceData.Spans.foldl filterErrorSpansStep []

/-- processTraceResult from trace.go. The Go function marshals the selected
projection to JSON; the JSON text is not modelled (see `ToolPayload`). -/
def processTraceResult (traceID : String) (traceData : api.Trace) (view : String) : CallToolResult :=
  if traceData.Spans.length = 0 then .error (ErrTraceNotFoundMsg traceID)
  else if view = ViewSummary then .success (.traceSummary (generateTraceSummary traceID traceData))
  else if view = ViewErrorsOnly then .success (.spans (filterErrorSpans traceData))
  else if view = ViewFull then .success (.fullTrace traceData)
  else .error (ErrInvalidViewMsg view)

/-- createBasicTraceSummary from trace.go. Go reads `TraceIds[0]`, which
panics when the slice is empty; the panic is modelled as `none` and
propagated by every caller, so a `none` anywhere downstream means the Go
code crashes instead of returning. -/
def createBasicTraceSummary (traceItem : api.BasicTrace) (startTimeMs duration : Int)
    (isError : Bool) : Option BasicTraceSummary :=
  match traceItem.TraceIds with
  | [] => none
  | tid :: _ =>
    some { TraceID := tid,
           ServiceName := traceItem.SegmentID,
           EndpointName := String.intercalate ", " traceItem.EndpointNames,
           StartTime := startTimeMs,
           Duration := duration,
           IsError := isError,
           SpanCount := 0 }

/-- Comparator modelling the descending-duration `sort.Slice` calls of
trace.go (same uniqueness caveat as `strLeB`: ties between equal durations
may appear in either order in Go; mergeSort fixes one of those orders). -/
def durGeB (a b : BasicTraceSummary) : Bool := decide (b.Duration ≤ a.Duration)

/-- Body of the trace loop of filterErrorTraces from trace.go; `none`
propagates the `createBasicTraceSummary` panic. -/
def filterErrorTracesStep (acc : List BasicTraceSummary) (oti : Option api.BasicTrace) :
    Option (List BasicTraceSummary) :=
  match oti with
  | some traceItem =>
    if traceItem.IsError = some true then
      match goTimeParse TimeFormatFull traceItem.Start with
      | some ns =>
        match createBasicTraceSummary traceItem (ns / 1000000) traceItem.Duration true with
        | some s => some (acc ++ [s])
        | none => none
      | none => some acc
    else some acc
  | none => some acc

/-- filterErrorTraces from trace.go: extracts only error traces, sorted by
descending duration; entries whose start time fails to parse are skipped
(its loop body is `filterErrorTracesStep`); `none` models the Go panic on
an error entry with an empty trace-id list. -/
def filterErrorTraces (traces : Option api.TraceBrief) : Option (List BasicTraceSummary) :=
  match traces with
  | none => some []
  | some tb =>
    match tb.Traces.foldlM filterErrorTracesStep [] with
    | none => none
    | some errorTraces => some (errorTraces.mergeSort durGeB)

/-- Accumulator threaded through the trace-item loop of
generateTracesSummary, holding every mutable local of the Go function. -/
structure TracesAgg where
  successCount : Nat
  errorCount : Nat
  services : List String
  endpoints : List String
  durations : List Int
  errorTraces : List BasicTraceSummary
  slowTraces : List BasicTraceSummary
  minStartTime : Int
  maxEndTime : Int
  totalDuration : Int

/-- processTraceItem from trace.go: processes a single trace item and
updates the aggregate state; items that are nil or whose start time fails to
parse are skipped, and `none` propagates the `createBasicTraceSummary`
panic (reachable for error or slow entries with an empty trace-id list, in
the same order the Go code would hit it). -/
def processTraceItem (slowTraceThreshold : Int) (st : TracesAgg)
    (item : Option api.BasicTrace) : Option TracesAgg :=
  match item with
  | none => some st
  | some traceItem =>
    match goTimeParse TimeFormatFull traceItem.Start with
    | none => some st
    | some ns => do
      let startTimeMs := ns / 1000000
      let endTimeMs := startTimeMs + traceItem.Duration
      let minStartTime :=
        if st.minStartTime = 0 ∨ startTimeMs < st.minStartTime then startTimeMs
        else st.minStartTime
      let maxEndTime := if endTimeMs > st.maxEndTime then endTimeMs else st.maxEndTime
      let duration := traceItem.Duration
      let durations := st.durations ++ [duration]
      let totalDuration := st.totalDuration + duration
      let isError := traceItem.IsError = some true
      let errorCount := if isError then st.errorCount + 1 else st.errorCount
      let successCount := if isError then st.successCount else st.successCount + 1
      let errorTraces ←
        if isError then do
          let s ← createBasicTraceSummary traceItem startTimeMs duration true
          pure (st.errorTraces ++ [s])
        else pure st.errorTraces
      let slowTraces ←
        if slowTraceThreshold > 0 ∧ duration > slowTraceThreshold then do
          let s ← createBasicTraceSummary traceItem startTimeMs duration isError
          pure (st.slowTraces ++ [s])
        else pure st.slowTraces
      let services := mapInsert st.services traceItem.SegmentID
      let endpoints := traceItem.EndpointNames.foldl
        (fun acc endpoint => if endpoint ≠ "" then mapInsert acc endpoint else acc)
        st.endpoints
      pure { successCount := successCount, errorCount := errorCount,
             services := services, endpoints := endpoints, durations := durations,
             errorTraces := errorTraces, slowTraces := slowTraces,
             minStartTime := minStartTime, maxEndTime := maxEndTime,
             totalDuration := totalDuration }

/-- calculateStatistics from trace.go; the `float64` average is modelled as
an exact rational, and the ascending `sort.Slice` as mergeSort. -/
def calculateStatistics (durations : List Int) (totalDuration : Int) : Rat × Int × Int :=
  if durations.length = 0 then (0, 0, 0)
  else
    let sorted := durations.mergeSort (fun a b => decide (a ≤ b))
    ((totalDuration : Rat) / (durations.length : Rat), sorted.headD 0, sorted.getLastD 0)

/-- Initial aggregate state of generateTracesSummary (all of the Go
function's zero-valued locals). -/
def tracesAggInit : TracesAgg :=
  { successCount := 0, errorCount := 0, services := [], endpoints := [],
    durations := [], errorTraces := [], slowTraces := [],
    minStartTime := 0, maxEndTime := 0, totalDuration := 0 }

/-- Empty TracesSummary (the Go zero value returned for empty input). -/
def emptyTracesSummary : TracesSummary :=
  { TotalTraces := 0, SuccessCount := 0, ErrorCount := 0, Services := [],
    Endpoints := [], AvgDuration := 0, MinDuration := 0, MaxDuration := 0,
    TimeRange := { StartTime := 0, EndTime := 0, Duration := 0 },
    ErrorTraces := [], SlowTraces := [] }

/-- generateTracesSummary from trace.go. Go ranges over two `map[string]...`
sets whose iteration order is unspecified; that order is made explicit as
the `rangeOrder` parameter (a function reordering a list), so that claims
about run-to-run determinism can be stated: two executions of the Go code
correspond to two different `rangeOrder` arguments. A `none` result models
the Go loop panicking inside `processTraceItem` (an error or slow entry
with an empty trace-id list) instead of returning a summary. -/
def generateTracesSummary (rangeOrder : List String → List String)
    (traces : Option api.TraceBrief) (slowTraceThreshold : Int) : Option TracesSummary :=
  match traces with
  | none => some emptyTracesSummary
  | some tb =>
    if tb.Traces.length = 0 then some emptyTracesSummary
    else
      match tb.Traces.foldlM (processTraceItem slowTraceThreshold) tracesAggInit with
      | none => none
      | some st =>
        let stats := calculateStatistics st.durations st.totalDuration
        some
          { TotalTraces := tb.Traces.length,
            SuccessCount := st.successCount,
            ErrorCount := st.errorCount,
            Services := (rangeOrder st.services).mergeSort strLeB,
            Endpoints := rangeOrder st.endpoints,
            AvgDuration := stats.1,
            MinDuration := stats.2.1,
            MaxDuration := stats.2.2,
            TimeRange := { StartTime := st.minStartTime, EndTime := st.maxEndTime,
                           Duration := st.maxEndTime - st.minStartTime },
            ErrorTraces := st.errorTraces.mergeSort durGeB,
            SlowTraces := st.slowTraces.mergeSort durGeB }

/-- processTracesResult from trace.go; a `panicked` outcome records that
the selected view's reshaper panics (empty trace-id list) and the Go
function never returns. -/
def processTracesResult (rangeOrder : List String → List String)
    (traces : Option api.TraceBrief) (view : String) (slowTraceThreshold : Int) : CallToolResult :=
  match traces with
  | none => .error ErrNoTracesFoundMsg
  | some tb =>
    if tb.Traces.length = 0 then .error ErrNoTracesFoundMsg
    else if view = ViewSummary then
      match generateTracesSummary rangeOrder (some tb) slowTraceThreshold with
      | some s => .success (.tracesSummary s)
      | none => .panicked
    else if view = ViewErrorsOnly then
      match filterErrorTraces (some tb) with
      | some l => .success (.basicSummaries l)
      | none => .panicked
    else if view = ViewFull then .success (.fullBrief tb)
    else .error (ErrInvalidViewMsg view)

/-- validateTracesQueryRequest from trace.go: `some msg` models a non-nil Go
error. -/
def validateTracesQueryRequest (req : TracesQueryRequest) : Option String :=
  if req.ServiceID = "" ∧ req.ServiceInstanceID = "" ∧ req.TraceID = "" ∧
      req.EndpointID = "" ∧ req.Duration = "" ∧ req.MinTraceDuration = 0 ∧
      req.MaxTraceDuration = 0 then
    some ErrNoFilterConditionMsg
  else if req.MinTraceDuration > 0 ∧ req.MaxTraceDuration > 0 ∧
      req.MinTraceDuration > req.MaxTraceDuration then
    some (ErrInvalidDurationRangeMsg req.MinTraceDuration req.MaxTraceDuration)
  else if req.PageSize < 0 then some ErrNegativePageSizeMsg
  else if req.PageNum < 0 then some ErrNegativePageNumMsg
  else none

/-- setBasicFields from trace.go. -/
def setBasicFields (req : TracesQueryRequest) (condition : api.TraceQueryCondition) :
    api.TraceQueryCondition :=
  let condition := if req.ServiceID ≠ "" then { condition with ServiceID := some req.ServiceID } else condition
  let condition := if req.ServiceInstanceID ≠ "" then { condition with ServiceInstanceID := some req.ServiceInstanceID } else condition
  let condition := if req.TraceID ≠ "" then { condition with TraceID := some req.TraceID } else condition
  let condition := if req.EndpointID ≠ "" then { condition with EndpointID := some req.EndpointID } else condition
  let condition := if req.MinTraceDuration > 0 then { condition with MinTraceDuration := some req.MinTraceDuration } else condition
  if req.MaxTraceDuration > 0 then { condition with MaxTraceDuration := some req.MaxTraceDuration } else condition

/-- setTags from trace.go. -/
def setTags (req : TracesQueryRequest) (condition : api.TraceQueryCondition) :
    api.TraceQueryCondition :=
  if req.Tags.length > 0 then
    { condition with Tags := req.Tags.map (fun tag => { Key := tag.1, Value := some tag.2 }) }
  else condition

/-- setDuration from trace.go. -/
def setDuration (now : Int) (req : TracesQueryRequest) (condition : api.TraceQueryCondition) :
    api.TraceQueryCondition :=
  if req.Duration ≠ "" then
    { condition with QueryDuration := some (ParseDuration now req.Duration req.Cold) }
  else if req.TraceID = "" then
    { condition with QueryDuration := some (ParseDuration now DefaultTraceDuration req.Cold) }
  else condition

/-- setTraceState from trace.go. -/
def setTraceState (req : TracesQueryRequest) (condition : api.TraceQueryCondition) :
    Except String api.TraceQueryCondition :=
  if req.TraceState = TraceStateSuccess then .ok { condition with TraceState := api.TraceStateSuccess }
  else if req.TraceState = TraceStateError then .ok { condition with TraceState := api.TraceStateError }
  else if req.TraceState = TraceStateAll ∨ req.TraceState = "" then .ok { condition with TraceState := api.TraceStateAll }
  else .error (ErrInvalidTraceStateMsg req.TraceState)

/-- setQueryOrder from trace.go. -/
def setQueryOrder (req : TracesQueryRequest) (condition : api.TraceQueryCondition) :
    Except String api.TraceQueryCondition :=
  if req.QueryOrder = QueryOrderStartTime ∨ req.QueryOrder = "" then
    .ok { condition with QueryOrder := api.QueryOrderByStartTime }
  else if req.QueryOrder = QueryOrderDuration then
    .ok { condition with QueryOrder := api.QueryOrderByDuration }
  else .error (ErrInvalidQueryOrderMsg req.QueryOrder)

/-- setPagination from trace.go. -/
def setPagination (req : TracesQueryRequest) (condition : api.TraceQueryCondition) :
    api.TraceQueryCondition :=
  let pageSize := if req.PageSize = 0 then DefaultTracePageSize else req.PageSize
  { condition with Paging := some (BuildPagination req.PageNum pageSize) }

/-- buildQueryCondition from trace.go. -/
def buildQueryCondition (now : Int) (req : TracesQueryRequest) :
    Except String api.TraceQueryCondition :=
  let condition : api.TraceQueryCondition :=
    { ServiceID := none, ServiceInstanceID := none, TraceID := none, EndpointID := none,
      MinTraceDuration := none, MaxTraceDuration := none, Tags := [], QueryDuration := none,
      TraceState := api.TraceStateAll, QueryOrder := api.QueryOrderByStartTime, Paging := none }
  let condition := setBasicFields req condition
  let condition := setTags req condition
  let condition := setDuration now req condition
  match setTraceState req condition with
  | .error e => .error e
  | .ok condition =>
    match setQueryOrder req condition with
    | .error e => .error e
    | .ok condition => .ok (setPagination req condition)

/-- searchTraces from trace.go. The GraphQL call `trace.Traces` is an
explicit `backend` parameter: `.error` models a non-nil Go error, `.ok` a
returned `api.TraceBrief`. `rangeOrder` is threaded to the summary view (see
`generateTracesSummary`). -/
def searchTraces (now : Int) (backend : api.TraceQueryCondition → Except String api.TraceBrief)
    (rangeOrder : List String → List String) (req : TracesQueryRequest) : CallToolResult :=
  match validateTracesQueryRequest req with
  | some e => .error e
  | none =>
    let req := if req.View = "" then { req with View := ViewFull } else req
    match buildQueryCondition now req with
    | .error e => .error e
    | .ok condition =>
      match backend condition with
      | .error err => .error (ErrFailedToQueryTracesMsg err)
      | .ok traces => processTracesResult rangeOrder (some traces) req.View req.SlowTraceThreshold

example : goTimeParse "2006-01-02 15:04:05" "2024-01-02 03:04:05" = some 1704164645000000000 := by decide
example : parseAbsoluteTime "2024-01-02" = some 1704153600000000000 := by decide
example : parseAbsoluteTime "bad" = none := by decide
example : parseTimeString 5 "now" 0 = 5 := by decide
example : (BuildDuration 0 "" "" "" false 0).Start = "1969-12-31 233000" := by decide
example : sscanfInt "7" = some 7 := by decide
example : parseLegacyDuration 0 "7d" = (-604800000000000, 0, api.StepDay) := by decide
example : (ParseDuration 0 "7d" false).Step = api.StepDay := by decide
example : (ParseDuration 0 "7d" false).Start = "1969-12-25" := by decide
example : (ParseDuration 0 "-30m" false).Start = "1969-12-31 233000" := by decide
example : (ParseDuration 0 "-30m" false).End = "1970-01-01 000000" := by decide

/-! Helper lemmas shared by the claim theorems. -/

/-- ColdStage field of ParseDuration, directly from its final record. -/
theorem parseDuration_coldStage (now : Int) (s : String) (cold : Bool) :
    (ParseDuration now s cold).ColdStage = (if cold then some true else none) := rfl

/-- Validity of the step clamp performed at the end of ParseDuration. -/
theorem step_valid_clamp (x : api.Step) :
    api.Step.IsValid (if ¬(api.Step.IsValid x) then api.StepMinute else x) = true := by
  by_cases hv : api.Step.IsValid x = true
  · simp [hv]
  · simp [hv]
    decide

/-- Lower bound on the width of a two-padded component. -/
theorem padZeroNat_two_length (n : Nat) : 2 ≤ (padZeroNat 2 n).length := by
  unfold padZeroNat
  rw [String.length_append]
  simp
  omega

/-- Strict growth of the rendered-timestamp length across the four step
granularities, for any instant. -/
theorem formatTimeByStep_length_chain (t : Int) :
    (FormatTimeByStep t api.StepDay).length < (FormatTimeByStep t api.StepHour).length
  ∧ (FormatTimeByStep t api.StepHour).length < (FormatTimeByStep t api.StepMinute).length
  ∧ (FormatTimeByStep t api.StepMinute).length < (FormatTimeByStep t api.StepSecond).length := by
  have h1 := padZeroNat_two_length (civilOfNs t).hour
  have h2 := padZeroNat_two_length (civilOfNs t).minute
  have h3 := padZeroNat_two_length (civilOfNs t).second
  simp [FormatTimeByStep, goFormat, api.StepDay, api.StepHour, api.StepMinute,
    api.StepSecond, String.length_append]
  omega

/-- Branch-free form of determineAdaptiveStep. -/
theorem determineAdaptiveStep_unfold (s e : Int) :
    determineAdaptiveStep s e =
      (if e - s ≥ 7 * 24 * timeHour then api.StepDay
       else if e - s ≥ 24 * timeHour then api.StepHour
       else if e - s ≥ timeHour then api.StepMinute
       else api.StepSecond) := rfl

/-- Validity of every adaptively-chosen step. -/
theorem adaptive_valid (s e : Int) : api.Step.IsValid (determineAdaptiveStep s e) = true := by
  rw [determineAdaptiveStep_unfold]
  split_ifs <;> decide

/-- Shape of ParseDuration on inputs accepted by Go's signed-duration
grammar. -/
theorem parseDuration_parsedBranch (now : Int) (s : String) (cold : Bool) (d : Int)
    (h : goParseDuration s = some d) :
    ParseDuration now s cold =
      (if d < 0 then
        { Start := FormatTimeByStep (now + d) (determineAdaptiveStep (now + d) now),
          End := FormatTimeByStep now (determineAdaptiveStep (now + d) now),
          Step := determineAdaptiveStep (now + d) now,
          ColdStage := if cold then some true else none }
      else
        { Start := FormatTimeByStep now (determineAdaptiveStep now (now + d)),
          End := FormatTimeByStep (now + d) (determineAdaptiveStep now (now + d)),
          Step := determineAdaptiveStep now (now + d),
          ColdStage := if cold then some true else none }) := by
  unfold ParseDuration
  rw [h]
  by_cases hd : d < 0 <;> simp [hd, adaptive_valid]

/-- CLAIM C1: for every duration string accepted by Go's signed-duration
grammar and every cold flag, ParseDuration returns the window
[now+d, now] when d < 0 and [now, now+d] when d > 0, with start and end
rendered by FormatTimeByStep at the adaptively chosen step. -/
theorem parseDuration_signed_window (now : Int) (s : String) (cold : Bool) (d : Int)
    (h : goParseDuration s = some d) :
    (d < 0 →
        (ParseDuration now s cold).Step = determineAdaptiveStep (now + d) now
      ∧ (ParseDuration now s cold).Start
            = FormatTimeByStep (now + d) ((ParseDuration now s cold).Step)
      ∧ (ParseDuration now s cold).End
            = FormatTimeByStep now ((ParseDuration now s cold).Step))
  ∧ (0 < d →
        (ParseDuration now s cold).Step = determineAdaptiveStep now (now + d)
      ∧ (ParseDuration now s cold).Start
            = FormatTimeByStep now ((ParseDuration now s cold).Step)
      ∧ (ParseDuration now s cold).End
            = FormatTimeByStep (now + d) ((ParseDuration now s cold).Step)) := by
  rw [parseDuration_parsedBranch now s cold d h]
  constructor
  · intro hd
    rw [if_pos hd]
    exact ⟨rfl, rfl, rfl⟩
  · intro hd
    rw [if_neg (by omega)]
    exact ⟨rfl, rfl, rfl⟩

/-- Witness for parseDuration_signed_window on the input `-30m`. -/
theorem parseDuration_signed_window_witness :
    (ParseDuration 0 "-30m" false).Step = determineAdaptiveStep (0 + (-1800000000000)) 0
  ∧ (ParseDuration 0 "-30m" false).Start
        = FormatTimeByStep (0 + (-1800000000000)) ((ParseDuration 0 "-30m" false).Step)
  ∧ (ParseDuration 0 "-30m" false).End
        = FormatTimeByStep 0 ((ParseDuration 0 "-30m" false).Step) :=
  (parseDuration_signed_window 0 "-30m" false (-1800000000000) (by decide)).1 (by decide)

/-- Characterization (for stating claims) of inputs accepted by the legacy
d/h-suffix grammar: more than one character, a d/D/h/H suffix, and a
positive numeric prefix readable by `Sscanf`. -/
def legacyGrammarMatch (s : String) : Bool :=
  let cs := s.toList
  decide (cs.length > 1) &&
  (decide (cs.getLastD ' ' = 'd') || decide (cs.getLastD ' ' = 'D') ||
   decide (cs.getLastD ' ' = 'h') || decide (cs.getLastD ' ' = 'H')) &&
  (match sscanfInt (String.mk cs.dropLast) with
   | some n => decide (n > 0)
   | none => false)

/-- Evaluation of parseLegacyDuration on the concrete input `7d`. -/
theorem parseLegacy_7d (now : Int) :
    parseLegacyDuration now "7d" = (now - 7 * 86400000000000, now, api.StepDay) := rfl

/-- Evaluation of ParseDuration on the concrete input `7d`. -/
theorem parseDuration_7d (now : Int) (cold : Bool) :
    ParseDuration now "7d" cold =
      { Start := FormatTimeByStep (now - 7 * 86400000000000) api.StepDay,
        End := FormatTimeByStep now api.StepDay,
        Step := api.StepDay,
        ColdStage := if cold then some true else none } := rfl

/-- Evaluation of ParseDuration on the concrete input `24h`. -/
theorem parseDuration_24h (now : Int) (cold : Bool) :
    ParseDuration now "24h" cold =
      { Start := FormatTimeByStep now api.StepHour,
        End := FormatTimeByStep (now + 86400000000000) api.StepHour,
        Step := api.StepHour,
        ColdStage := if cold then some true else none } := by
  have hp : goParseDuration "24h" = some 86400000000000 := by decide
  rw [parseDuration_parsedBranch now "24h" cold 86400000000000 hp]
  rw [if_neg (by omega)]
  have ha : determineAdaptiveStep now (now + 86400000000000) = api.StepHour := by
    rw [determineAdaptiveStep_unfold]
    have h1 : now + 86400000000000 - now = 86400000000000 := by ring
    rw [h1]
    norm_num [timeHour]
  rw [ha]

/-- COUNTEREXAMPLE to CLAIM C3: the input `xh` matches neither the signed
Go duration grammar nor the legacy d/h-suffix grammar, yet it normalizes to
a one-hour window at hour step, not to the 7-day window at day step the
claim asserts. -/
theorem parseDuration_unparsable_counterexample :
    goParseDuration "xh" = none
  ∧ legacyGrammarMatch "xh" = false
  ∧ (ParseDuration 0 "xh" false).Step = api.StepHour
  ∧ api.StepHour ≠ api.StepDay
  ∧ (ParseDuration 0 "xh" false).Start = FormatTimeByStep (0 - timeHour) api.StepHour
  ∧ (ParseDuration 0 "xh" false).Start ≠ FormatTimeByStep (0 - 7 * 86400000000000) api.StepDay := by
  decide

/-- CLAIM C3 (amended): ParseDuration is total and always yields a valid
step; `7d` normalizes to the 7-day/day-step window and `24h` to a
1-day/hour-step window; and any input matching neither grammar and not
ending in `h`/`H` normalizes to the 7-day/day-step default. (The original
claim, refuted above, also covered unparsable h-suffixed inputs, which
instead yield a 1-hour/hour-step default.) -/
theorem parseDuration_total_defaults (now : Int) (cold : Bool) :
    (∀ s : String, api.Step.IsValid ((ParseDuration now s cold).Step) = true)
  ∧ ((ParseDuration now "7d" cold).Step = api.StepDay
      ∧ (ParseDuration now "7d" cold).Start = FormatTimeByStep (now - 7 * 86400000000000) api.StepDay
      ∧ (ParseDuration now "7d" cold).End = FormatTimeByStep now api.StepDay)
  ∧ ((ParseDuration now "24h" cold).Step = api.StepHour
      ∧ (ParseDuration now "24h" cold).Start = FormatTimeByStep now api.StepHour
      ∧ (ParseDuration now "24h" cold).End = FormatTimeByStep (now + 86400000000000) api.StepHour)
  ∧ (∀ s : String, goParseDuration s = none → legacyGrammarMatch s = false →
      (s.toList.length ≤ 1 ∨ (s.toList.getLastD ' ' ≠ 'h' ∧ s.toList.getLastD ' ' ≠ 'H')) →
        (ParseDuration now s cold).Step = api.StepDay
      ∧ (ParseDuration now s cold).Start
            = FormatTimeByStep (now - 7 * 86400000000000) api.StepDay
      ∧ (ParseDuration now s cold).End = FormatTimeByStep now api.StepDay) := by
  refine ⟨?_, ?_, ?_, ?_⟩
  · intro s
    exact step_valid_clamp _
  · rw [parseDuration_7d now cold]
    exact ⟨rfl, rfl, rfl⟩
  · rw [parseDuration_24h now cold]
    exact ⟨rfl, rfl, rfl⟩
  · intro s hnone hleg hsuffix
    have hl : parseLegacyDuration now s = (now - 7 * 86400000000000, now, api.StepDay) := by
      unfold parseLegacyDuration
      by_cases h1 : s.toList.length > 1 ∧
          (s.toList.getLastD ' ' = 'd' ∨ s.toList.getLastD ' ' = 'D')
      · rw [if_pos h1]
        cases hsc : sscanfInt (String.mk s.toList.dropLast) with
        | none => rfl
        | some n =>
          have hn : ¬(n > 0) := by
            intro hgt
            have hml : legacyGrammarMatch s = true := by
              unfold legacyGrammarMatch
              simp only [hsc, Bool.and_eq_true, Bool.or_eq_true, decide_eq_true_eq]
              refine ⟨⟨h1.1, ?_⟩, hgt⟩
              rcases h1.2 with hd | hd
              · exact Or.inl (Or.inl (Or.inl hd))
              · exact Or.inl (Or.inl (Or.inr hd))
            rw [hml] at hleg
            simp at hleg
          simp [hn]
      · rw [if_neg h1]
        by_cases h2 : s.toList.length > 1 ∧
            (s.toList.getLastD ' ' = 'h' ∨ s.toList.getLastD ' ' = 'H')
        · exfalso
          rcases hsuffix with hlen | ⟨hh1, hh2⟩
          · omega
          · rcases h2.2 with hh | hh
            · exact hh1 hh
            · exact hh2 hh
        · rw [if_neg h2]
    have hv : api.Step.IsValid api.StepDay = true := by decide
    unfold ParseDuration
    rw [hnone]
    simp [hl, hv]

/-- Witness for parseDuration_total_defaults applied to the unparsable
input `xyz`. -/
theorem parseDuration_total_defaults_witness :
    (ParseDuration 0 "xyz" false).Step = api.StepDay
  ∧ (ParseDuration 0 "xyz" false).Start
        = FormatTimeByStep (0 - 7 * 86400000000000) api.StepDay
  ∧ (ParseDuration 0 "xyz" false).End = FormatTimeByStep 0 api.StepDay :=
  (parseDuration_total_defaults 0 false).2.2.2 "xyz" (by decide) (by decide) (by decide)

/-- CLAIM C10: for every pair of integer inputs, BuildPagination returns a
pagination whose page number and page size are both at least 1: a
non-positive pageNum is replaced by the default 1, a non-positive pageSize
by the default 15, and positive inputs are passed through unchanged. -/
theorem buildPagination_defaults (pageNum pageSize : Int) :
    (BuildPagination pageNum pageSize).PageNum
        = some (if pageNum ≤ 0 then DefaultPageNum else pageNum)
  ∧ (BuildPagination pageNum pageSize).PageSize
        = (if pageSize ≤ 0 then DefaultPageSize else pageSize)
  ∧ 1 ≤ ((BuildPagination pageNum pageSize).PageNum.getD 0)
  ∧ 1 ≤ (BuildPagination pageNum pageSize).PageSize := by
  unfold BuildPagination DefaultPageNum DefaultPageSize
  by_cases h1 : pageNum ≤ 0 <;> by_cases h2 : pageSize ≤ 0 <;>
    simp [h1, h2] <;> omega

/-- CLAIM C9: for every duration-normalization call (ParseDuration or
BuildDuration), the ColdStage field of the returned Duration is `some true`
exactly when the cold flag is true, and absent (`none`) when the flag is
false. -/
theorem coldStage_only_when_true (now : Int) (s startStr endStr stepStr : String)
    (cold : Bool) (dm : Int) :
    (ParseDuration now s cold).ColdStage = (if cold then some true else none)
  ∧ (BuildDuration now startStr endStr stepStr cold dm).ColdStage
        = (if cold then some true else none) := by
  refine ⟨parseDuration_coldStage now s cold, ?_⟩
  unfold BuildDuration
  by_cases h : startStr ≠ "" ∨ endStr ≠ ""
  · simp only [if_pos h]
  · simp only [if_neg h]
    exact parseDuration_coldStage _ _ _

/-- CLAIM C2: for startTime ≤ endTime, determineAdaptiveStep picks day for a
span of at least 7 days, hour for a span in [1 day, 7 days), minute for a
span in [1 hour, 1 day) and second below 1 hour; and each granularity makes
FormatTimeByStep render a distinct timestamp format (the four renderings of
any instant are pairwise different). -/
theorem determineAdaptiveStep_spec (startTime endTime : Int) (h : startTime ≤ endTime) :
    (determineAdaptiveStep startTime endTime = api.StepDay
        ↔ 7 * 24 * timeHour ≤ endTime - startTime)
  ∧ (determineAdaptiveStep startTime endTime = api.StepHour
        ↔ 24 * timeHour ≤ endTime - startTime ∧ endTime - startTime < 7 * 24 * timeHour)
  ∧ (determineAdaptiveStep startTime endTime = api.StepMinute
        ↔ timeHour ≤ endTime - startTime ∧ endTime - startTime < 24 * timeHour)
  ∧ (determineAdaptiveStep startTime endTime = api.StepSecond
        ↔ endTime - startTime < timeHour)
  ∧ (∀ t : Int, List.Pairwise (fun a b => a ≠ b)
      [FormatTimeByStep t api.StepDay, FormatTimeByStep t api.StepHour,
       FormatTimeByStep t api.StepMinute, FormatTimeByStep t api.StepSecond]) := by
  have hDH : api.StepDay ≠ api.StepHour := by decide
  have hDM : api.StepDay ≠ api.StepMinute := by decide
  have hDS : api.StepDay ≠ api.StepSecond := by decide
  have hHM : api.StepHour ≠ api.StepMinute := by decide
  have hHS : api.StepHour ≠ api.StepSecond := by decide
  have hMS : api.StepMinute ≠ api.StepSecond := by decide
  have hEq : ∀ s e : Int, determineAdaptiveStep s e =
      (if e - s ≥ 7 * 24 * timeHour then api.StepDay
       else if e - s ≥ 24 * timeHour then api.StepHour
       else if e - s ≥ timeHour then api.StepMinute
       else api.StepSecond) := fun s e => rfl
  refine ⟨?_, ?_, ?_, ?_, ?_⟩
  · rw [hEq]
    split_ifs with h1 h2 h3 <;>
      simp_all [ge_iff_le, hDH.symm, hDM.symm, hDS.symm] <;> omega
  · rw [hEq]
    split_ifs with h1 h2 h3 <;>
      simp_all [ge_iff_le, hDH, hHM.symm, hHS.symm] <;> omega
  · rw [hEq]
    split_ifs with h1 h2 h3 <;>
      simp_all [ge_iff_le, hDM, hHM, hMS.symm] <;> omega
  · rw [hEq]
    split_ifs with h1 h2 h3 <;>
      simp_all [ge_iff_le, hDS, hHS, hMS] <;> omega
  · intro t
    have hc := formatTimeByStep_length_chain t
    have ne12 : FormatTimeByStep t api.StepDay ≠ FormatTimeByStep t api.StepHour := by
      intro he; have := congrArg String.length he; omega
    have ne13 : FormatTimeByStep t api.StepDay ≠ FormatTimeByStep t api.StepMinute := by
      intro he; have := congrArg String.length he; omega
    have ne14 : FormatTimeByStep t api.StepDay ≠ FormatTimeByStep t api.StepSecond := by
      intro he; have := congrArg String.length he; omega
    have ne23 : FormatTimeByStep t api.StepHour ≠ FormatTimeByStep t api.StepMinute := by
      intro he; have := congrArg String.length he; omega
    have ne24 : FormatTimeByStep t api.StepHour ≠ FormatTimeByStep t api.StepSecond := by
      intro he; have := congrArg String.length he; omega
    have ne34 : FormatTimeByStep t api.StepMinute ≠ FormatTimeByStep t api.StepSecond := by
      intro he; have := congrArg String.length he; omega
    simp [List.pairwise_cons, ne12, ne13, ne14, ne23, ne24, ne34]

/-- Witness for determineAdaptiveStep_spec at a concrete one-hour span. -/
theorem determineAdaptiveStep_spec_witness :
    determineAdaptiveStep 0 3600000000000 = api.StepMinute :=
  ((determineAdaptiveStep_spec 0 3600000000000 (by decide)).2.2.1).mpr (by decide)

/-- Predicate (for stating claims): a span-list entry that is non-nil and
flagged as an error. -/
def isErrorSpan : Option api.Span → Bool
  | some sp => decide (sp.IsError = some true)
  | none => false

/-- Selection (for stating claims) of a span matching the root heuristic:
span-id 0 and parent-span-id -1. -/
def rootSpanOf (os : Option api.Span) : Option api.Span :=
  os.bind (fun sp => if sp.SpanID = 0 ∧ sp.ParentSpanID = -1 then some sp else none)

/-- Last span of a list matching the root heuristic (the Go loop lets later
matches overwrite earlier ones). -/
def lastRootSpan (spans : List (Option api.Span)) : Option api.Span :=
  (spans.filterMap rootSpanOf).getLast?

/-- Fields of the summary not touched by the span loop. -/
theorem foldl_spanStep_preserves (l : List (Option api.Span)) (acc : TraceSummaryAcc) :
    (l.foldl traceSummarySpanStep acc).summary.TraceID = acc.summary.TraceID
  ∧ (l.foldl traceSummarySpanStep acc).summary.TotalSpans = acc.summary.TotalSpans := by
  induction l generalizing acc with
  | nil => exact ⟨rfl, rfl⟩
  | cons o xs ih =>
    rw [List.foldl_cons]
    refine ⟨((ih _).1).trans ?_, ((ih _).2).trans ?_⟩ <;>
      (cases o with
       | none => rfl
       | some sp =>
         simp only [traceSummarySpanStep]
         cases hep : sp.EndpointName <;> split_ifs <;> rfl)

/-- Error counting performed by the span loop. -/
theorem foldl_spanStep_errorCount (l : List (Option api.Span)) (acc : TraceSummaryAcc) :
    (l.foldl traceSummarySpanStep acc).summary.ErrorCount
      = acc.summary.ErrorCount + l.countP isErrorSpan := by
  induction l generalizing acc with
  | nil => simp
  | cons o xs ih =>
    rw [List.foldl_cons, ih, List.countP_cons]
    cases o with
    | none => simp [traceSummarySpanStep, isErrorSpan]
    | some sp =>
      simp only [traceSummarySpanStep, isErrorSpan]
      by_cases he : sp.IsError = some true <;>
        cases hep : sp.EndpointName <;> split_ifs <;> simp_all <;> omega

/-- Membership in a modelled set insertion. -/
theorem mapInsert_mem (l : List String) (k x : String) :
    x ∈ mapInsert l k ↔ x ∈ l ∨ x = k := by
  unfold mapInsert
  split_ifs with h
  · constructor
    · exact fun hx => Or.inl hx
    · rintro (hx | rfl)
      · exact hx
      · exact h
  · simp

/-- Duplicate-freedom of a modelled set insertion. -/
theorem mapInsert_nodup (l : List String) (k : String) (h : l.Nodup) :
    (mapInsert l k).Nodup := by
  unfold mapInsert
  split_ifs with hk
  · exact h
  · simp [List.nodup_append, h, hk]

/-- The span loop extends the service set exactly by the non-nil spans'
service codes. -/
theorem foldl_spanStep_services_mem (l : List (Option api.Span)) (acc : TraceSummaryAcc)
    (x : String) :
    x ∈ (l.foldl traceSummarySpanStep acc).services ↔
      x ∈ acc.services ∨ ∃ sp : api.Span, some sp ∈ l ∧ sp.ServiceCode = x := by
  induction l generalizing acc with
  | nil => simp
  | cons o xs ih =>
    rw [List.foldl_cons, ih]
    cases o with
    | none => simp [traceSummarySpanStep]
    | some sp0 =>
      have hs : (traceSummarySpanStep acc (some sp0)).services
          = mapInsert acc.services sp0.ServiceCode := rfl
      rw [hs, mapInsert_mem]
      constructor
      · rintro ((hx | rfl) | ⟨sp, hsp, hc⟩)
        · exact Or.inl hx
        · exact Or.inr ⟨sp0, List.mem_cons_self _ _, rfl⟩
        · exact Or.inr ⟨sp, List.mem_cons_of_mem _ hsp, hc⟩
      · rintro (hx | ⟨sp, hsp, hc⟩)
        · exact Or.inl (Or.inl hx)
        · rcases List.mem_cons.mp hsp with heq | hmem
          · have hsp0 : sp = sp0 := by injection heq
            subst hsp0
            exact Or.inl (Or.inr hc.symm)
          · exact Or.inr ⟨sp, hmem, hc⟩

/-- The span loop keeps the service set duplicate-free. -/
theorem foldl_spanStep_services_nodup (l : List (Option api.Span)) (acc : TraceSummaryAcc)
    (h : acc.services.Nodup) : (l.foldl traceSummarySpanStep acc).services.Nodup := by
  induction l generalizing acc with
  | nil => exact h
  | cons o xs ih =>
    rw [List.foldl_cons]
    apply ih
    cases o with
    | none => exact h
    | some sp =>
      have hs : (traceSummarySpanStep acc (some sp)).services
          = mapInsert acc.services sp.ServiceCode := rfl
      rw [hs]
      exact mapInsert_nodup _ _ h

/-- Root-heuristic fields are untouched by non-root spans. -/
theorem spanStep_nonroot_preserves (st : TraceSummaryAcc) (os : Option api.Span)
    (h : rootSpanOf os = none) :
    (traceSummarySpanStep st os).summary.StartTime = st.summary.StartTime
  ∧ (traceSummarySpanStep st os).summary.EndTime = st.summary.EndTime
  ∧ (traceSummarySpanStep st os).summary.RootEndpoint = st.summary.RootEndpoint
  ∧ (traceSummarySpanStep st os).summary.TotalDuration = st.summary.TotalDuration := by
  cases os with
  | none => exact ⟨rfl, rfl, rfl, rfl⟩
  | some sp =>
    have hr : ¬(sp.SpanID = 0 ∧ sp.ParentSpanID = -1) := by
      intro hc
      unfold rootSpanOf at h
      simp [hc] at h
    simp only [traceSummarySpanStep]
    refine ⟨?_, ?_, ?_, ?_⟩ <;> split_ifs <;> simp_all

/-- Root-heuristic fields assigned by a root span. -/
theorem spanStep_root_sets (st : TraceSummaryAcc) (sp : api.Span)
    (h : sp.SpanID = 0 ∧ sp.ParentSpanID = -1) :
    (traceSummarySpanStep st (some sp)).summary.StartTime = sp.StartTime
  ∧ (traceSummarySpanStep st (some sp)).summary.EndTime = sp.EndTime
  ∧ (∀ e, sp.EndpointName = some e → (traceSummarySpanStep st (some sp)).summary.RootEndpoint = e)
  ∧ (0 < sp.StartTime → 0 < sp.EndTime →
      (traceSummarySpanStep st (some sp)).summary.TotalDuration = sp.EndTime - sp.StartTime) := by
  refine ⟨?_, ?_, ?_, ?_⟩
  · simp only [traceSummarySpanStep]
    cases hep : sp.EndpointName <;> split_ifs <;> simp_all
  · simp only [traceSummarySpanStep]
    cases hep : sp.EndpointName <;> split_ifs <;> simp_all
  · intro e he
    simp only [traceSummarySpanStep]
    split_ifs <;> simp_all
  · intro h1 h2
    simp only [traceSummarySpanStep]
    cases hep : sp.EndpointName <;> split_ifs <;> simp_all

/-- Root-heuristic fields of the whole span loop come from the last root
span when one exists. -/
theorem foldl_spanStep_root (l : List (Option api.Span)) (acc : TraceSummaryAcc)
    (r : api.Span) (h : (l.filterMap rootSpanOf).getLast? = some r) :
    (l.foldl traceSummarySpanStep acc).summary.StartTime = r.StartTime
  ∧ (l.foldl traceSummarySpanStep acc).summary.EndTime = r.EndTime
  ∧ (∀ e, r.EndpointName = some e →
      (l.foldl traceSummarySpanStep acc).summary.RootEndpoint = e)
  ∧ (0 < r.StartTime → 0 < r.EndTime →
      (l.foldl traceSummarySpanStep acc).summary.TotalDuration = r.EndTime - r.StartTime) := by
  induction l using List.reverseRecOn generalizing r with
  | nil => simp [lastRootSpan] at h
  | append_singleton l2 x ih =>
    rw [List.foldl_append, List.foldl_cons, List.foldl_nil]
    rw [List.filterMap_append] at h
    cases hx : rootSpanOf x with
    | some r0 =>
      have hfx : List.filterMap rootSpanOf [x] = [r0] := by
        simp [List.filterMap_cons, hx]
      rw [hfx, List.getLast?_concat] at h
      have hrr : r0 = r := by injection h
      subst hrr
      obtain ⟨sp, rfl⟩ : ∃ sp, x = some sp := by
        cases x with
        | none => simp [rootSpanOf] at hx
        | some sp => exact ⟨sp, rfl⟩
      have hcond : sp.SpanID = 0 ∧ sp.ParentSpanID = -1 := by
        unfold rootSpanOf at hx
        by_cases hc : sp.SpanID = 0 ∧ sp.ParentSpanID = -1
        · exact hc
        · simp [hc] at hx
      have hsp : sp = r0 := by
        unfold rootSpanOf at hx
        simp [hcond] at hx
        exact hx
      subst hsp
      exact spanStep_root_sets _ sp hcond
    | none =>
      have hfx : List.filterMap rootSpanOf [x] = [] := by
        simp [List.filterMap_cons, hx]
      rw [hfx, List.append_nil] at h
      have hpres := spanStep_nonroot_preserves (l2.foldl traceSummarySpanStep acc) x hx
      have hih := ih r h
      refine ⟨hpres.1.trans hih.1, hpres.2.1.trans hih.2.1, ?_, ?_⟩
      · intro e he
        exact hpres.2.2.1.trans (hih.2.2.1 e he)
      · intro h1 h2
        exact hpres.2.2.2.trans (hih.2.2.2 h1 h2)

/-- Transitivity of the string comparator. -/
theorem strLeB_trans (a b c : String) (h1 : strLeB a b = true) (h2 : strLeB b c = true) :
    strLeB a c = true := by
  unfold strLeB at h1 h2 ⊢
  simp only [decide_eq_true_eq] at h1 h2 ⊢
  exact le_trans h1 h2

/-- Totality of the string comparator. -/
theorem strLeB_total (a b : String) : (strLeB a b || strLeB b a) = true := by
  unfold strLeB
  rcases le_total a b with h | h <;> simp [h]

/-- Concrete fixture for claim C5: a root span with start time 0. -/
def c5rootSpan : api.Span :=
  { SpanID := 0, ParentSpanID := -1, ServiceCode := "svc", StartTime := 0, EndTime := 100,
    EndpointName := some "ep", IsError := none }

/-- Concrete fixture for claim C5: a one-span trace around `c5rootSpan`. -/
def c5trace : api.Trace := { Spans := [some c5rootSpan] }

/-- Concrete fixture for the C5 witness: a root span with positive times. -/
def c5witSpan : api.Span :=
  { SpanID := 0, ParentSpanID := -1, ServiceCode := "s", StartTime := 10, EndTime := 100,
    EndpointName := some "ep", IsError := none }

/-- Concrete fixture for the C5 witness: a one-span trace around
`c5witSpan`. -/
def c5witTrace : api.Trace := { Spans := [some c5witSpan] }

/-- COUNTEREXAMPLE to CLAIM C5: a trace whose root span (span-id 0,
parent-span-id -1) has start time 0 and end time 100; the claim asserts the
summary takes total duration = end minus start = 100 from that span, but the
code leaves TotalDuration at 0 because it only computes it when both
timestamps are positive. -/
theorem generateTraceSummary_counterexample :
    lastRootSpan c5trace.Spans = some c5rootSpan
  ∧ (generateTraceSummary "t1" c5trace).StartTime = 0
  ∧ (generateTraceSummary "t1" c5trace).EndTime = 100
  ∧ (generateTraceSummary "t1" c5trace).TotalDuration ≠ 100 - 0 := by
  decide

/-- CLAIM C5 (amended): for every non-empty single trace, the summary view
reports the span count, the distinct set of services sorted ascending, and
the count of spans flagged as errors; when a span with span-id 0 and
parent-span-id -1 exists, start and end times are taken from the last such
span, the root endpoint from it when its endpoint name is present, and the
total duration equals end minus start when both timestamps are positive.
(The original claim, refuted above, asserted the duration unconditionally.) -/
theorem generateTraceSummary_spec (traceID : String) (tr : api.Trace)
    (hne : tr.Spans ≠ []) :
    (generateTraceSummary traceID tr).TraceID = traceID
  ∧ (generateTraceSummary traceID tr).TotalSpans = tr.Spans.length
  ∧ (generateTraceSummary traceID tr).ErrorCount = tr.Spans.countP isErrorSpan
  ∧ (generateTraceSummary traceID tr).HasErrors
        = decide (0 < (generateTraceSummary traceID tr).ErrorCount)
  ∧ (generateTraceSummary traceID tr).Services.Pairwise (fun a b => a ≤ b)
  ∧ (generateTraceSummary traceID tr).Services.Nodup
  ∧ (∀ x, x ∈ (generateTraceSummary traceID tr).Services
        ↔ ∃ sp : api.Span, some sp ∈ tr.Spans ∧ sp.ServiceCode = x)
  ∧ (∀ r : api.Span, lastRootSpan tr.Spans = some r →
        (generateTraceSummary traceID tr).StartTime = r.StartTime
      ∧ (generateTraceSummary traceID tr).EndTime = r.EndTime
      ∧ (∀ e, r.EndpointName = some e → (generateTraceSummary traceID tr).RootEndpoint = e)
      ∧ (0 < r.StartTime → 0 < r.EndTime →
          (generateTraceSummary traceID tr).TotalDuration = r.EndTime - r.StartTime)) := by
  have hnod : (tr.Spans.foldl traceSummarySpanStep (traceSummaryInit traceID tr)).services.Nodup :=
    foldl_spanStep_services_nodup tr.Spans (traceSummaryInit traceID tr) (by simp [traceSummaryInit])
  refine ⟨?_, ?_, ?_, rfl, ?_, ?_, ?_, ?_⟩
  · exact (foldl_spanStep_preserves tr.Spans (traceSummaryInit traceID tr)).1
  · exact (foldl_spanStep_preserves tr.Spans (traceSummaryInit traceID tr)).2
  · show (tr.Spans.foldl traceSummarySpanStep (traceSummaryInit traceID tr)).summary.ErrorCount
        = tr.Spans.countP isErrorSpan
    rw [foldl_spanStep_errorCount]
    simp [traceSummaryInit]
  · have hs := List.sorted_mergeSort strLeB_trans strLeB_total
      (tr.Spans.foldl traceSummarySpanStep (traceSummaryInit traceID tr)).services
    exact hs.imp (fun hab => of_decide_eq_true hab)
  · exact ((List.mergeSort_perm
      (tr.Spans.foldl traceSummarySpanStep (traceSummaryInit traceID tr)).services
      strLeB).nodup_iff).mpr hnod
  · intro x
    show x ∈ (tr.Spans.foldl traceSummarySpanStep
        (traceSummaryInit traceID tr)).services.mergeSort strLeB ↔ _
    rw [List.mem_mergeSort, foldl_spanStep_services_mem]
    simp [traceSummaryInit]
  · intro r hr
    exact foldl_spanStep_root tr.Spans (traceSummaryInit traceID tr) r hr

/-- Witness for generateTraceSummary_spec on a one-span trace whose root
span has positive timestamps. -/
theorem generateTraceSummary_spec_witness :
    (generateTraceSummary "w5" c5witTrace).StartTime = 10
  ∧ (generateTraceSummary "w5" c5witTrace).TotalDuration = 90 := by
  have h := (generateTraceSummary_spec "w5" c5witTrace (by decide)).2.2.2.2.2.2.2
    c5witSpan (by decide)
  exact ⟨h.1, h.2.2.2 (by decide) (by decide)⟩

/-- Projection (for stating claims) of a trace-list entry to the basic
summary the errors_only view would build for it: `some` exactly for non-nil
entries flagged as errors whose start timestamp parses in the full layout
and that carry at least one trace id. -/
def errTraceSummaryOf (oti : Option api.BasicTrace) : Option BasicTraceSummary :=
  match oti with
  | some ti =>
    if ti.IsError = some true then
      match goTimeParse TimeFormatFull ti.Start with
      | some ns => createBasicTraceSummary ti (ns / 1000000) ti.Duration true
      | none => none
    else none
  | none => none

/-- Predicate (for stating claims): a trace-list entry that, when non-nil,
carries at least one trace id — the entries on which `TraceIds[0]` cannot
panic. -/
def hasTraceId (oti : Option api.BasicTrace) : Bool :=
  match oti with
  | some ti => decide (ti.TraceIds ≠ [])
  | none => true

/-- Selection (for stating claims) of non-nil spans flagged as errors. -/
def errSpanOf (os : Option api.Span) : Option api.Span :=
  os.bind (fun sp => if sp.IsError = some true then some sp else none)

/-- On a list whose entries all carry a trace id, the error-trace loop
returns (no panic) and accumulates exactly the error entries with parseable
start times, in order. -/
theorem foldlM_filterErrorTracesStep (l : List (Option api.BasicTrace))
    (acc : List BasicTraceSummary) (hids : ∀ oti ∈ l, hasTraceId oti = true) :
    l.foldlM filterErrorTracesStep acc = some (acc ++ l.filterMap errTraceSummaryOf) := by
  induction l generalizing acc with
  | nil => simp
  | cons o xs ih =>
    have hxs : ∀ oti ∈ xs, hasTraceId oti = true :=
      fun oti hm => hids oti (List.mem_cons_of_mem _ hm)
    rw [List.foldlM_cons, List.filterMap_cons]
    cases o with
    | none => simp [filterErrorTracesStep, errTraceSummaryOf, ih _ hxs]
    | some ti =>
      have hti : ti.TraceIds ≠ [] := by
        have ho := hids (some ti) (List.mem_cons_self _ _)
        unfold hasTraceId at ho
        exact of_decide_eq_true ho
      by_cases he : ti.IsError = some true
      · cases hp : goTimeParse TimeFormatFull ti.Start with
        | some ns =>
          cases htids : ti.TraceIds with
          | nil => exact absurd htids hti
          | cons tid rest =>
            have hcs : createBasicTraceSummary ti (ns / 1000000) ti.Duration true
                = some { TraceID := tid, ServiceName := ti.SegmentID,
                         EndpointName := String.intercalate ", " ti.EndpointNames,
                         StartTime := ns / 1000000, Duration := ti.Duration,
                         IsError := true, SpanCount := 0 } := by
              unfold createBasicTraceSummary
              rw [htids]
            simp [filterErrorTracesStep, errTraceSummaryOf, he, hp, hcs, ih _ hxs]
        | none => simp [filterErrorTracesStep, errTraceSummaryOf, he, hp, ih _ hxs]
      · simp [filterErrorTracesStep, errTraceSummaryOf, he, ih _ hxs]

/-- The error-span loop accumulates exactly the spans flagged as errors, in
order. -/
theorem foldl_filterErrorSpansStep (l : List (Option api.Span)) (acc : List api.Span) :
    l.foldl filterErrorSpansStep acc = acc ++ l.filterMap errSpanOf := by
  induction l generalizing acc with
  | nil => simp
  | cons o xs ih =>
    rw [List.foldl_cons, ih, List.filterMap_cons]
    cases o with
    | none => simp [filterErrorSpansStep, errSpanOf]
    | some sp =>
      by_cases he : sp.IsError = some true <;>
        simp [filterErrorSpansStep, errSpanOf, he]

/-- Transitivity of the descending-duration comparator. -/
theorem durGeB_trans (a b c : BasicTraceSummary) (h1 : durGeB a b = true)
    (h2 : durGeB b c = true) : durGeB a c = true := by
  unfold durGeB at h1 h2 ⊢
  simp only [decide_eq_true_eq] at h1 h2 ⊢
  omega

/-- Totality of the descending-duration comparator. -/
theorem durGeB_total (a b : BasicTraceSummary) : (durGeB a b || durGeB b a) = true := by
  unfold durGeB
  rcases le_total a.Duration b.Duration with h | h <;> simp [h]

/-- Concrete fixture for claim C6: an error-flagged trace entry whose start
timestamp does not parse. -/
def c6badItem : api.BasicTrace :=
  { SegmentID := "s", EndpointNames := [], Duration := 5, Start := "bad",
    IsError := some true, TraceIds := ["t"] }

/-- Concrete fixture for claim C6: a one-entry trace list around
`c6badItem`. -/
def c6badBrief : api.TraceBrief := { Traces := [some c6badItem] }

/-- Concrete fixture for the C6 witness: an error entry of duration 5. -/
def c6witItemA : api.BasicTrace :=
  { SegmentID := "s1", EndpointNames := ["e1"], Duration := 5,
    Start := "2024-01-02 03:04:05", IsError := some true, TraceIds := ["ta"] }

/-- Concrete fixture for the C6 witness: an error entry of duration 9. -/
def c6witItemB : api.BasicTrace :=
  { SegmentID := "s2", EndpointNames := ["e2"], Duration := 9,
    Start := "2024-01-02 03:04:06", IsError := some true, TraceIds := ["tb"] }

/-- Concrete fixture for the C6 witness: a two-entry trace list. -/
def c6witBrief : api.TraceBrief := { Traces := [some c6witItemA, some c6witItemB] }

/-- COUNTEREXAMPLE to CLAIM C6: a trace list whose single entry is flagged
as an error but has an unparsable start timestamp; the claim asserts
errors_only returns exactly the error-flagged entries, yet the code skips
the entry and returns an empty list. -/
theorem filterErrorTraces_counterexample :
    some c6badItem ∈ c6badBrief.Traces
  ∧ c6badItem.IsError = some true
  ∧ filterErrorTraces (some c6badBrief) = some [] := by
  refine ⟨by decide, by decide, ?_⟩
  have h := foldlM_filterErrorTracesStep c6badBrief.Traces [] (by decide)
  have hfm : c6badBrief.Traces.filterMap errTraceSummaryOf = [] := by decide
  rw [hfm] at h
  simp only [filterErrorTraces, h]
  simp

/-- CLAIM C6 (amended): for every trace list containing an error-flagged
entry, provided every entry carries at least one trace id (an entry with an
empty trace-id list makes the Go code panic at `TraceIds[0]` instead of
returning), errors_only returns exactly the error-flagged entries whose
start timestamp parses in the full layout (the original claim, refuted
above, did not except unparsable timestamps), sorted by descending
duration, and no non-error entry; for a single trace, errors_only returns
exactly the spans flagged as errors, in order. -/
theorem errorsOnly_exactly_errors (tb : api.TraceBrief)
    (hex : ∃ ti : api.BasicTrace, some ti ∈ tb.Traces ∧ ti.IsError = some true)
    (hids : ∀ oti ∈ tb.Traces, hasTraceId oti = true) :
    filterErrorTraces (some tb)
        = some ((tb.Traces.filterMap errTraceSummaryOf).mergeSort durGeB)
  ∧ ((tb.Traces.filterMap errTraceSummaryOf).mergeSort durGeB).Pairwise
        (fun a b => b.Duration ≤ a.Duration)
  ∧ ((tb.Traces.filterMap errTraceSummaryOf).mergeSort durGeB).Perm
        (tb.Traces.filterMap errTraceSummaryOf)
  ∧ (∀ x, x ∈ (tb.Traces.filterMap errTraceSummaryOf).mergeSort durGeB
        ↔ x ∈ tb.Traces.filterMap errTraceSummaryOf)
  ∧ (∀ td : api.Trace, filterErrorSpans td = td.Spans.filterMap errSpanOf) := by
  have h := foldlM_filterErrorTracesStep tb.Traces [] hids
  refine ⟨?_, ?_, ?_, ?_, ?_⟩
  · simp only [filterErrorTraces, h]
    simp
  · exact (List.sorted_mergeSort durGeB_trans durGeB_total
      (tb.Traces.filterMap errTraceSummaryOf)).imp (fun hab => of_decide_eq_true hab)
  · exact List.mergeSort_perm _ _
  · intro x
    rw [List.mem_mergeSort]
  · intro td
    show td.Spans.foldl filterErrorSpansStep [] = _
    rw [foldl_filterErrorSpansStep]
    simp

/-- Witness for errorsOnly_exactly_errors on a two-error-entry list whose
entries all carry trace ids. -/
theorem errorsOnly_exactly_errors_witness :
    filterErrorTraces (some c6witBrief)
      = some ((c6witBrief.Traces.filterMap errTraceSummaryOf).mergeSort durGeB) :=
  (errorsOnly_exactly_errors c6witBrief ⟨c6witItemA, by decide, by decide⟩ (by decide)).1

/-- Final aggregate state of generateTracesSummary over a trace list;
`none` when the Go loop panics. -/
def tracesAggSt (thr : Int) (tb : api.TraceBrief) : Option TracesAgg :=
  tb.Traces.foldlM (processTraceItem thr) tracesAggInit

/-- Empty-input branch of generateTracesSummary. -/
theorem generateTracesSummary_empty (ord : List String → List String) (tb : api.TraceBrief)
    (thr : Int) (h : tb.Traces.length = 0) :
    generateTracesSummary ord (some tb) thr = emptyTracesSummary := by
  unfold generateTracesSummary
  simp [h]

/-- Non-empty branch of generateTracesSummary, spelled out field by field
over the aggregate fold (which is `none` exactly when the Go loop panics). -/
theorem generateTracesSummary_cons (ord : List String → List String) (tb : api.TraceBrief)
    (thr : Int) (h : ¬tb.Traces.length = 0) :
    generateTracesSummary ord (some tb) thr =
      (match tracesAggSt thr tb with
       | none => none
       | some st =>
         some
           { TotalTraces := tb.Traces.length,
             SuccessCount := st.successCount,
             ErrorCount := st.errorCount,
             Services := (ord st.services).mergeSort strLeB,
             Endpoints := ord st.endpoints,
             AvgDuration := (calculateStatistics st.durations st.totalDuration).1,
             MinDuration := (calculateStatistics st.durations st.totalDuration).2.1,
             MaxDuration := (calculateStatistics st.durations st.totalDuration).2.2,
             TimeRange := { StartTime := st.minStartTime,
                            EndTime := st.maxEndTime,
                            Duration := st.maxEndTime - st.minStartTime },
             ErrorTraces := st.errorTraces.mergeSort durGeB,
             SlowTraces := st.slowTraces.mergeSort durGeB }) := by
  unfold generateTracesSummary
  simp [h, tracesAggSt]

/-- Concrete fixture for claim C7: one parseable error trace entry with two
endpoints, so the endpoint set has two elements. -/
def c7item : api.BasicTrace :=
  { SegmentID := "s", EndpointNames := ["b", "a"], Duration := 5,
    Start := "2024-01-02 03:04:05", IsError := some true, TraceIds := ["t"] }

/-- Concrete fixture for claim C7: a one-entry trace list around `c7item`. -/
def c7brief : api.TraceBrief := { Traces := [some c7item] }

/-- COUNTEREXAMPLE to CLAIM C7: two executions of summary generation on the
same input list, differing only in the (unspecified) iteration order of the
Go endpoint-set map — here the identity order and the reversed order, both
permutations — produce different endpoint lists, because the code sorts the
service list but not the endpoint list. -/
theorem generateTracesSummary_counterexample :
    (List.reverse ["b", "a"]).Perm ["b", "a"]
  ∧ Option.map TracesSummary.Endpoints (generateTracesSummary id (some c7brief) 0)
      = some ["b", "a"]
  ∧ Option.map TracesSummary.Endpoints (generateTracesSummary List.reverse (some c7brief) 0)
      = some ["a", "b"]
  ∧ Option.map TracesSummary.Endpoints (generateTracesSummary id (some c7brief) 0)
      ≠ Option.map TracesSummary.Endpoints (generateTracesSummary List.reverse (some c7brief) 0) := by
  refine ⟨by decide, by decide, by decide, by decide⟩

/-- CLAIM C7 (amended): summary generation over a trace list is
deterministic in everything but endpoint order: two runs with any two
map-iteration orders either both panic (an error or slow entry with an
empty trace-id list) or both return, and when they return they agree on the
aggregate counts, min/avg/max duration, time range and the sorted service
list, while their endpoint lists agree only up to permutation
(first-encounter order, not sorted) — which is what the counterexample
above forces the original "identical sorted endpoint lists" to weaken to. -/
theorem generateTracesSummary_run_twice (tb : api.TraceBrief) (thr : Int)
    (ord1 ord2 : List String → List String)
    (h1 : ∀ xs : List String, (ord1 xs).Perm xs)
    (h2 : ∀ xs : List String, (ord2 xs).Perm xs) :
    (generateTracesSummary ord1 (some tb) thr = none
        ↔ generateTracesSummary ord2 (some tb) thr = none)
  ∧ (∀ s1 s2 : TracesSummary,
      generateTracesSummary ord1 (some tb) thr = some s1 →
      generateTracesSummary ord2 (some tb) thr = some s2 →
        s1.TotalTraces = s2.TotalTraces
      ∧ s1.SuccessCount = s2.SuccessCount
      ∧ s1.ErrorCount = s2.ErrorCount
      ∧ s1.AvgDuration = s2.AvgDuration
      ∧ s1.MinDuration = s2.MinDuration
      ∧ s1.MaxDuration = s2.MaxDuration
      ∧ s1.TimeRange = s2.TimeRange
      ∧ s1.Services = s2.Services
      ∧ s1.Services.Pairwise (fun a b => a ≤ b)
      ∧ s1.Endpoints.Perm s2.Endpoints) := by
  haveI : IsAntisymm String (fun a b => a ≤ b) := ⟨fun a b hab hba => le_antisymm hab hba⟩
  by_cases hlen : tb.Traces.length = 0
  · rw [generateTracesSummary_empty ord1 tb thr hlen, generateTracesSummary_empty ord2 tb thr hlen]
    refine ⟨Iff.rfl, ?_⟩
    intro s1 s2 hs1 hs2
    obtain rfl : emptyTracesSummary = s1 := Option.some.inj hs1
    obtain rfl : emptyTracesSummary = s2 := Option.some.inj hs2
    exact ⟨rfl, rfl, rfl, rfl, rfl, rfl, rfl, rfl, by simp [emptyTracesSummary],
      List.Perm.refl _⟩
  · rw [generateTracesSummary_cons ord1 tb thr hlen, generateTracesSummary_cons ord2 tb thr hlen]
    cases hF : tracesAggSt thr tb with
    | none =>
      refine ⟨Iff.rfl, ?_⟩
      intro s1 s2 hs1 hs2
      cases hs1
    | some st =>
      refine ⟨by simp, ?_⟩
      intro s1 s2 hs1 hs2
      obtain rfl := (Option.some.inj hs1).symm
      obtain rfl := (Option.some.inj hs2).symm
      have hs1p : ((ord1 st.services).mergeSort strLeB).Pairwise
          (fun a b : String => a ≤ b) :=
        (List.sorted_mergeSort strLeB_trans strLeB_total
          (ord1 st.services)).imp (fun hab => of_decide_eq_true hab)
      have hs2p : ((ord2 st.services).mergeSort strLeB).Pairwise
          (fun a b : String => a ≤ b) :=
        (List.sorted_mergeSort strLeB_trans strLeB_total
          (ord2 st.services)).imp (fun hab => of_decide_eq_true hab)
      have hperm : ((ord1 st.services).mergeSort strLeB).Perm
          ((ord2 st.services).mergeSort strLeB) :=
        ((List.mergeSort_perm _ _).trans (h1 _)).trans
          ((h2 _).symm.trans (List.mergeSort_perm _ _).symm)
      refine ⟨rfl, rfl, rfl, rfl, rfl, rfl, rfl, ?_, hs1p, ?_⟩
      · exact List.eq_of_perm_of_sorted hperm hs1p hs2p
      · exact (h1 _).trans (h2 _).symm

/-- Witness for generateTracesSummary_run_twice with the identity and the
reversing iteration orders on a concrete one-entry list. -/
theorem generateTracesSummary_run_twice_witness :
    (generateTracesSummary id (some c7brief) 0 = none
      ↔ generateTracesSummary List.reverse (some c7brief) 0 = none) :=
  (generateTracesSummary_run_twice c7brief 0 id List.reverse
    (fun xs => List.Perm.refl xs) (fun xs => List.reverse_perm xs)).1

/-- Concrete fixture for claim C8: a request with a filter but an invalid
view enum value. -/
def c8req : TracesQueryRequest := { ServiceID := "svc", View := "bogus" }

/-- Concrete fixture for claim C8: a parseable trace entry for the
successful backend. -/
def c8item : api.BasicTrace :=
  { SegmentID := "s", EndpointNames := [], Duration := 1,
    Start := "2024-01-02 03:04:05", IsError := none, TraceIds := ["t"] }

/-- Concrete fixture for claim C8: a backend whose call succeeds with one
trace. -/
def c8backendOk : api.TraceQueryCondition → Except String api.TraceBrief :=
  fun _ => .ok { Traces := [some c8item] }

/-- Concrete fixture for claim C8: a backend whose call fails. -/
def c8backendErr : api.TraceQueryCondition → Except String api.TraceBrief :=
  fun _ => .error "boom"

/-- COUNTEREXAMPLE to CLAIM C8: a request whose only validation problem is
an invalid `view` enum value passes pre-call validation, and the tool's
outcome then depends on the backend call — so the invalid-enum error is not
reported before the backend is attempted. -/
theorem searchTraces_counterexample :
    validateTracesQueryRequest c8req = none
  ∧ searchTraces 0 c8backendErr id c8req
      = CallToolResult.error (ErrFailedToQueryTracesMsg "boom")
  ∧ searchTraces 0 c8backendOk id c8req = CallToolResult.error (ErrInvalidViewMsg "bogus")
  ∧ searchTraces 0 c8backendErr id c8req ≠ searchTraces 0 c8backendOk id c8req := by
  refine ⟨by decide, by decide, by decide, by decide⟩

/-- Fields unaffected by defaulting an empty view. -/
theorem viewDefault_fields (req : TracesQueryRequest) :
    (if req.View = "" then { req with View := ViewFull } else req).TraceState = req.TraceState
  ∧ (if req.View = "" then { req with View := ViewFull } else req).QueryOrder
      = req.QueryOrder := by
  split_ifs <;> exact ⟨rfl, rfl⟩

/-- CLAIM C8 (amended): a traces-query request failing pre-call validation —
missing filter condition, invalid duration range, negative page_size or
page_num, or an invalid trace_state or query_order enum value — is answered
with that validation error for every backend, i.e. without the backend call
influencing the result. (The original claim, refuted above, also counted an
invalid view value among the errors reported before the backend call.) -/
theorem searchTraces_validation (now : Int)
    (b : api.TraceQueryCondition → Except String api.TraceBrief)
    (ord : List String → List String) (req : TracesQueryRequest) :
    (∀ e, validateTracesQueryRequest req = some e →
        searchTraces now b ord req = CallToolResult.error e)
  ∧ ((req.PageSize < 0 ∨ req.PageNum < 0 ∨
        (req.ServiceID = "" ∧ req.ServiceInstanceID = "" ∧ req.TraceID = "" ∧
         req.EndpointID = "" ∧ req.Duration = "" ∧ req.MinTraceDuration = 0 ∧
         req.MaxTraceDuration = 0)) →
      ∃ e, validateTracesQueryRequest req = some e)
  ∧ (validateTracesQueryRequest req = none →
      req.TraceState ≠ TraceStateSuccess → req.TraceState ≠ TraceStateError →
      req.TraceState ≠ TraceStateAll → req.TraceState ≠ "" →
      searchTraces now b ord req
        = CallToolResult.error (ErrInvalidTraceStateMsg req.TraceState))
  ∧ (validateTracesQueryRequest req = none →
      (req.TraceState = TraceStateSuccess ∨ req.TraceState = TraceStateError ∨
       req.TraceState = TraceStateAll ∨ req.TraceState = "") →
      req.QueryOrder ≠ QueryOrderStartTime → req.QueryOrder ≠ "" →
      req.QueryOrder ≠ QueryOrderDuration →
      searchTraces now b ord req
        = CallToolResult.error (ErrInvalidQueryOrderMsg req.QueryOrder)) := by
  refine ⟨?_, ?_, ?_, ?_⟩
  · intro e he
    simp [searchTraces, he]
  · intro h
    unfold validateTracesQueryRequest
    by_cases hc1 : req.ServiceID = "" ∧ req.ServiceInstanceID = "" ∧ req.TraceID = "" ∧
        req.EndpointID = "" ∧ req.Duration = "" ∧ req.MinTraceDuration = 0 ∧
        req.MaxTraceDuration = 0
    · rw [if_pos hc1]
      exact ⟨_, rfl⟩
    · rw [if_neg hc1]
      by_cases hc2 : req.MinTraceDuration > 0 ∧ req.MaxTraceDuration > 0 ∧
          req.MinTraceDuration > req.MaxTraceDuration
      · rw [if_pos hc2]
        exact ⟨_, rfl⟩
      · rw [if_neg hc2]
        by_cases hc3 : req.PageSize < 0
        · rw [if_pos hc3]
          exact ⟨_, rfl⟩
        · rw [if_neg hc3]
          by_cases hc4 : req.PageNum < 0
          · rw [if_pos hc4]
            exact ⟨_, rfl⟩
          · exfalso
            rcases h with h | h | h
            · exact hc3 h
            · exact hc4 h
            · exact hc1 h
  · intro hv hs1 hs2 hs3 hs4
    have hts := (viewDefault_fields req).1
    have hst : ∀ c, setTraceState (if req.View = "" then { req with View := ViewFull } else req) c
        = Except.error (ErrInvalidTraceStateMsg req.TraceState) := by
      intro c
      unfold setTraceState
      rw [hts]
      rw [if_neg hs1, if_neg hs2, if_neg (fun hor => hor.elim hs3 hs4)]
    have hbq : buildQueryCondition now (if req.View = "" then { req with View := ViewFull } else req)
        = Except.error (ErrInvalidTraceStateMsg req.TraceState) := by
      unfold buildQueryCondition
      simp only [hst]
    simp [searchTraces, hv, hbq]
  · intro hv hdisj hq1 hq2 hq3
    have hts := (viewDefault_fields req).1
    have hqo := (viewDefault_fields req).2
    have hst : ∃ c2, setTraceState (if req.View = "" then { req with View := ViewFull } else req)
        (setDuration now (if req.View = "" then { req with View := ViewFull } else req)
          (setTags (if req.View = "" then { req with View := ViewFull } else req)
            (setBasicFields (if req.View = "" then { req with View := ViewFull } else req)
              { ServiceID := none, ServiceInstanceID := none, TraceID := none, EndpointID := none,
                MinTraceDuration := none, MaxTraceDuration := none, Tags := [],
                QueryDuration := none, TraceState := api.TraceStateAll,
                QueryOrder := api.QueryOrderByStartTime, Paging := none })))
        = Except.ok c2 := by
      unfold setTraceState
      rw [hts]
      rcases hdisj with h | h | h | h <;> rw [h] <;>
        simp [TraceStateSuccess, TraceStateError, TraceStateAll]
    have hso : ∀ c, setQueryOrder (if req.View = "" then { req with View := ViewFull } else req) c
        = Except.error (ErrInvalidQueryOrderMsg req.QueryOrder) := by
      intro c
      unfold setQueryOrder
      rw [hqo]
      rw [if_neg (fun hor => hor.elim hq1 hq2), if_neg hq3]
    obtain ⟨c2, hc2⟩ := hst
    have hbq : buildQueryCondition now (if req.View = "" then { req with View := ViewFull } else req)
        = Except.error (ErrInvalidQueryOrderMsg req.QueryOrder) := by
      unfold buildQueryCondition
      simp only [hc2, hso]
    simp [searchTraces, hv, hbq]

/-- Witness for searchTraces_validation on a request with a negative page
size. -/
theorem searchTraces_validation_witness :
    searchTraces 0 c8backendOk id { ServiceID := "svc", PageSize := -1 }
      = CallToolResult.error ErrNegativePageSizeMsg :=
  (searchTraces_validation 0 c8backendOk id { ServiceID := "svc", PageSize := -1 }).1
    ErrNegativePageSizeMsg (by decide)

/-- CLAIM C4: a single-trace result with an empty span list yields the
trace-not-found error, and a nil or empty trace list yields the
no-traces-found error, whatever view is requested (valid or not). -/
theorem emptyResults_report_notFound (traceID view : String)
    (rangeOrder : List String → List String) (thr : Int) :
    processTraceResult traceID { Spans := [] } view
        = CallToolResult.error (ErrTraceNotFoundMsg traceID)
  ∧ processTracesResult rangeOrder none view thr = CallToolResult.error ErrNoTracesFoundMsg
  ∧ processTracesResult rangeOrder (some { Traces := [] }) view thr
        = CallToolResult.error ErrNoTracesFoundMsg := by
  refine ⟨rfl, rfl, rfl⟩

end SWMCP
